import Mathlib

/-!
Shallow embedding of the budgeting tool's aggregation engine
(`src/analysis.py`) together with the value-normalization fragment of its
ingestion adapter (`src/data_fetch.py`, `get_transactions` lines 69-82).

Modelling conventions:

* A pandas `DataFrame` of transactions becomes `Table`, a list of `Row`s
  carrying the fixed ingestion schema.  A possibly missing (`NaN`) cell is
  an `Option`; the code only ever observes missing values in the
  `CATEGORY` column, and the derived `VALUE_NUMERIC` column is optional
  per row (absent columns are `none`).
* Python `float` arithmetic is embedded as exact rational (`Rat`)
  arithmetic.  Of the grammar accepted by `float(...)` and
  `pd.to_numeric` we model the decimal-numeral fragment (optional sign,
  integer digits, optional fractional digits); exotic inputs such as
  `"nan"`, `"inf"`, scientific notation or underscores are treated as
  parse failures.
* A raised exception is modelled by `Except.error` carrying the Python
  exception name.
* `DataFrame.query` is modelled on the expression fragment the code feeds
  it: one comparison operator followed by one literal (numeric for the
  converted value column, quoted for string columns).  Everything outside
  that fragment is a query failure, which the code catches.
* pandas in-place column assignment (as in `sum_amount_in_each_account`)
  is made observable by returning the caller-visible table state.
-/

/-- One transaction record (one ledger row).  Fields mirror the ingestion
schema of `get_transactions`.  `CATEGORY` is optional because
`get_all_categories` checks `notna()`; `VALUE_NUMERIC` is the derived
numeric column, `none` when the column is absent for this row. -/
structure Row where
  DATE : String
  DESCRIPTION : String
  CATEGORY : Option String
  ACCOUNT : String
  TYPE : String
  MONTH : String
  VALUE : String
  VALUE_NUMERIC : Option Rat
deriving DecidableEq, Repr

/-- A transaction table: the ordered rows of the DataFrame. -/
abbrev Table := List Row

/-! ### Character-level utilities shared by the value pipelines -/

/-- Numeric value of a decimal digit character. -/
def charDigit (c : Char) : Nat := c.toNat - 48

/-- All characters are decimal digits. -/
def allDigits (cs : List Char) : Bool := cs.all Char.isDigit

/-- Value of a big-endian digit string (`int("...")` on valid digits). -/
def digitsToNat (cs : List Char) : Nat :=
  cs.foldl (fun a c => 10 * a + charDigit c) 0

/-- Whitespace in the sense of `str.strip()` (the forms that occur). -/
def isSpaceChar (c : Char) : Bool :=
  c = ' ' || c = '\t' || c = '\n' || c = '\r'

/-- `str.strip()`: drop whitespace from both ends. -/
def trimChars (cs : List Char) : List Char :=
  ((cs.dropWhile isSpaceChar).reverse.dropWhile isSpaceChar).reverse

/-- `str.replace('Kč', '')`: delete every occurrence of the currency
marker (left to right, non-overlapping). -/
def stripKc : List Char → List Char
  | 'K' :: 'č' :: rest => stripKc rest
  | c :: rest => c :: stripKc rest
  | [] => []

/-- `str.replace(c₀, '')` for a single character: delete every
occurrence. -/
def removeChar (c₀ : Char) (cs : List Char) : List Char :=
  cs.filter (fun c => c ≠ c₀)

/-- Leading-sign handling of `float(...)`. -/
def splitSign : List Char → Bool × List Char
  | '-' :: rest => (true, rest)
  | '+' :: rest => (false, rest)
  | cs => (false, cs)

/-- The rational denoted by sign, combined digits and number of
fractional digits. -/
def ratParts (neg : Bool) (n k : Nat) : Rat :=
  (if neg then -1 else 1) * ((n : Rat) / (10 ^ k : Rat))

/-- `float(...)` on the decimal-numeral fragment: optional sign, integer
digits, optionally a dot and fractional digits; at least one digit in
total; `none` models `ValueError`. -/
def parseFloatChars (cs : List Char) : Option Rat :=
  let sb := splitSign cs
  let ip := sb.2.takeWhile (fun c => c ≠ '.')
  match sb.2.dropWhile (fun c => c ≠ '.') with
  | [] =>
    if ip ≠ [] ∧ allDigits ip then some (ratParts sb.1 (digitsToNat ip) 0)
    else none
  | _ :: fp =>
    if fp.all (fun c => c ≠ '.') ∧ allDigits ip ∧ allDigits fp ∧ (ip ≠ [] ∨ fp ≠ []) then
      some (ratParts sb.1 (digitsToNat (ip ++ fp)) fp.length)
    else none

/-- The value-cleaning pipeline of the analysis module (lines 104-108,
160-165, 191-195, 300-304): `.str.replace('Kč', '').str.replace(',',
'').str.strip()`. -/
def cleanValue (s : String) : List Char :=
  trimChars (removeChar ',' (stripKc s.toList))

/-- `.astype(float)` applied to one cleaned cell: `none` is the
`ValueError` that aborts the whole column conversion. -/
def convertValue (s : String) : Option Rat :=
  parseFloatChars (cleanValue s)

/-- The ingestion normalization of `get_transactions` (data_fetch lines
70-79): strip, replace an empty value by `'0'`, delete the currency
marker, commas and spaces, then `pd.to_numeric(errors='coerce').fillna(0.0)`. -/
def normalize_value (s : String) : Rat :=
  let t := trimChars s.toList
  let t := if t = [] then ['0'] else t
  let t := removeChar ' ' (removeChar ',' (stripKc t))
  (parseFloatChars t).getD 0

/-- Big-endian decimal digit characters of `n` (empty for `0`). -/
def natDigitChars (n : Nat) : List Char :=
  ((Nat.digits 10 n).map Nat.digitChar).reverse

/-- Left-pad with `'0'` to length at least `len`. -/
def padZeros (len : Nat) (cs : List Char) : List Char :=
  List.replicate (len - cs.length) '0' ++ cs

/-- The number of fractional digits used to render `q`: enough that
`q * 10 ^ pyK q` is integral whenever `q` has a finite decimal
expansion, and at least one. -/
def pyK (q : Rat) : Nat := max 1 q.den

/-- The combined digits of `|q|` scaled by `10 ^ pyK q` (exact when the
denominator divides that power of ten). -/
def pyN (q : Rat) : Nat := q.num.natAbs * (10 ^ pyK q / q.den)

/-- The digit characters of the rendering, padded so that at least one
integer digit precedes the point. -/
def pyDs (q : Rat) : List Char := padZeros (pyK q + 1) (natDigitChars (pyN q))

/-- Integer-part digits of the rendering. -/
def pyIp (q : Rat) : List Char := (pyDs q).take ((pyDs q).length - pyK q)

/-- Fractional-part digits of the rendering. -/
def pyFp (q : Rat) : List Char := (pyDs q).drop ((pyDs q).length - pyK q)

/-- Modelled from the spec: the `str(...)` rendering of an
already-normalized float, as a plain decimal numeral with at least one
integer and one fractional digit (e.g. `0 ↦ "0.0"`, `-1/2 ↦ "-0.50"`
for denominator 2).  Only meaningful for rationals with a finite decimal
expansion, which is the case for every normalized value. -/
def pyStr (q : Rat) : String :=
  String.mk ((if q.num < 0 then ['-'] else []) ++ pyIp q ++ '.' :: pyFp q)

/-! ### Column and criteria model -/

/-- The string columns every ingested table carries
(`get_transactions` guarantees them). -/
def baseColumns : List String :=
  ["DATE", "DESCRIPTION", "CATEGORY", "ACCOUNT", "TYPE", "MONTH", "VALUE"]

/-- Whether the derived numeric column is present. -/
def hasNumericCol (t : Table) : Bool := t.any (fun r => r.VALUE_NUMERIC.isSome)

/-- Membership test of `df.columns`. -/
def hasCol (t : Table) (c : String) : Bool :=
  baseColumns.contains c || (c == "VALUE_NUMERIC" && hasNumericCol t)

/-- The `.astype(str)` view of a cell (pandas renders a missing value as
the string `"nan"`). -/
def cellStr (r : Row) (c : String) : String :=
  if c = "DATE" then r.DATE
  else if c = "DESCRIPTION" then r.DESCRIPTION
  else if c = "CATEGORY" then r.CATEGORY.getD "nan"
  else if c = "ACCOUNT" then r.ACCOUNT
  else if c = "TYPE" then r.TYPE
  else if c = "MONTH" then r.MONTH
  else if c = "VALUE" then r.VALUE
  else (r.VALUE_NUMERIC.map pyStr).getD "nan"

/-- The raw cell used by equality / `isin` criteria: a missing value
(`none`) compares unequal to everything, as in pandas.  The numeric
column is outside the modelled criteria fragment and never compares
equal to a string, again as in pandas. -/
def cellOpt (r : Row) (c : String) : Option String :=
  if c = "CATEGORY" then r.CATEGORY
  else if c = "VALUE_NUMERIC" then none
  else some (cellStr r c)

/-- One keyword-argument value of `sum_values_by_criteria`: the code
dispatches on `isinstance(value, list)` then `isinstance(value, str)`;
we model the string and list shapes it is used with. -/
inductive Crit where
  | strC (s : String)
  | listC (l : List String)
deriving DecidableEq, Repr

/-- Comparison operators recognized by the engine
(`['>', '<', '>=', '<=', '==', '!=']`). -/
inductive CmpOp where
  | gt | lt | ge | le | eq | ne
deriving DecidableEq, Repr

/-- Numeric comparison. -/
def cmpRat (op : CmpOp) (a b : Rat) : Bool :=
  match op with
  | .gt => decide (b < a)
  | .lt => decide (a < b)
  | .ge => decide (b ≤ a)
  | .le => decide (a ≤ b)
  | .eq => a == b
  | .ne => !(a == b)

/-- Lexicographic string comparison (Python `str` comparison semantics
on code points). -/
def cmpStr (op : CmpOp) (a b : String) : Bool :=
  match op with
  | .gt => decide (b < a)
  | .lt => decide (a < b)
  | .ge => !(decide (a < b))
  | .le => !(decide (b < a))
  | .eq => a == b
  | .ne => !(a == b)

/-- Does `pat` occur as a leading block of `cs`? -/
def startsWithSeq : List Char → List Char → Bool
  | _, [] => true
  | [], _ :: _ => false
  | c :: cs, p :: ps => c == p && startsWithSeq cs ps

/-- Python `pat in s` substring containment. -/
def containsSeq (hay pat : List Char) : Bool :=
  match hay with
  | [] => pat.isEmpty
  | _ :: rest => startsWithSeq hay pat || containsSeq rest pat

/-- `any(op in value for op in ['>', '<', '>=', '<=', '==', '!='])`. -/
def hasOpSubstr (s : String) : Bool :=
  containsSeq s.toList ['>'] || containsSeq s.toList ['<'] ||
  containsSeq s.toList ['>', '='] || containsSeq s.toList ['<', '='] ||
  containsSeq s.toList ['=', '='] || containsSeq s.toList ['!', '=']

/-- Leading comparison operator of a query expression (two-character
operators first). -/
def parseOp : List Char → Option (CmpOp × List Char)
  | '>' :: '=' :: rest => some (.ge, rest)
  | '<' :: '=' :: rest => some (.le, rest)
  | '=' :: '=' :: rest => some (.eq, rest)
  | '!' :: '=' :: rest => some (.ne, rest)
  | '>' :: rest => some (.gt, rest)
  | '<' :: rest => some (.lt, rest)
  | _ => none

/-- Model of `DataFrame.query` on the converted numeric value column:
the expression fragment `<op> <numeral>`; `none` is a query failure
(syntax error, undefined name, ...). -/
def parseNumExpr (s : String) : Option (CmpOp × Rat) :=
  match parseOp (s.toList.dropWhile isSpaceChar) with
  | none => none
  | some oprest =>
    match parseFloatChars (trimChars oprest.2) with
    | none => none
    | some v => some (oprest.1, v)

/-- Model of `DataFrame.query` on a string column: the fragment
`<op> '<literal>'` (a quoted string); a numeric literal against a string
column is a `TypeError`, i.e. a query failure. -/
def parseStrExpr (s : String) : Option (CmpOp × String) :=
  match parseOp (s.toList.dropWhile isSpaceChar) with
  | none => none
  | some oprest =>
    match trimChars oprest.2 with
    | '\'' :: rest =>
      match rest.dropWhile (fun c => c ≠ '\'') with
      | ['\''] => some (oprest.1, String.mk (rest.takeWhile (fun c => c ≠ '\'')))
      | _ => none
    | _ => none

/-! ### sum_values_by_criteria (analysis lines 81-139) -/

/-- Column conversion `astype(float)` after cleaning (lines 103-108): the
whole column converts or the call raises `ValueError`. -/
def convertCol (valueCol : String) : List Row → Except String (List (Row × Rat))
  | [] => .ok []
  | r :: rs =>
    match parseFloatChars (cleanValue (cellStr r valueCol)) with
    | none => .error "ValueError"
    | some v =>
      match convertCol valueCol rs with
      | .error e => .error e
      | .ok ps => .ok ((r, v) :: ps)

/-- `criteria.pop('VALUE_CONDITION')`, first part: the popped value. -/
def findVC : List (String × Crit) → Option Crit
  | [] => none
  | kc :: rest => if kc.1 = "VALUE_CONDITION" then some kc.2 else findVC rest

/-- `criteria.pop('VALUE_CONDITION')`, second part: the remaining
criteria in order. -/
def dropVC (cs : List (String × Crit)) : List (String × Crit) :=
  cs.filter (fun kc => kc.1 ≠ "VALUE_CONDITION")

/-- The special `VALUE_CONDITION` handling (lines 111-122): try the query
engine; on failure hand-parse a `>`/`<` threshold — where `float(...)` on
the stripped remainder may itself raise — and otherwise silently drop the
criterion.  A non-string condition value makes the membership tests run
on the list and the `.replace` attribute access raise. -/
def applyValueCondition (cond : Crit) (pairs : List (Row × Rat)) :
    Except String (List (Row × Rat)) :=
  match cond with
  | .strC s =>
    match parseNumExpr s with
    | some opv => .ok (pairs.filter (fun p => cmpRat opv.1 p.2 opv.2))
    | none =>
      if s.toList.contains '>' then
        match parseFloatChars (trimChars (removeChar '>' s.toList)) with
        | some th => .ok (pairs.filter (fun p => decide (th < p.2)))
        | none => .error "ValueError"
      else if s.toList.contains '<' then
        match parseFloatChars (trimChars (removeChar '<' s.toList)) with
        | some th => .ok (pairs.filter (fun p => decide (p.2 < th)))
        | none => .error "ValueError"
      else .ok pairs
  | .listC l =>
    if l.contains ">" then .error "AttributeError"
    else if l.contains "<" then .error "AttributeError"
    else .ok pairs

/-- One pass of the remaining-criteria loop (lines 125-137): unknown
columns are skipped; list values filter by membership; operator-bearing
strings go through the query engine with failures swallowed; everything
else filters by equality. -/
def applyCrit (t : Table) (valueCol : String) (pairs : List (Row × Rat))
    (k : String) (c : Crit) : List (Row × Rat) :=
  if hasCol t k then
    match c with
    | .listC l =>
      pairs.filter (fun p =>
        match cellOpt p.1 k with
        | some s => l.contains s
        | none => false)
    | .strC s =>
      if hasOpSubstr s then
        if k = valueCol then
          match parseNumExpr s with
          | some opv => pairs.filter (fun p => cmpRat opv.1 p.2 opv.2)
          | none => pairs
        else
          match parseStrExpr s with
          | some oplit =>
            pairs.filter (fun p =>
              match cellOpt p.1 k with
              | some cs => cmpStr oplit.1 cs oplit.2
              | none => false)
          | none => pairs
      else
        pairs.filter (fun p =>
          match cellOpt p.1 k with
          | some cs => cs == s
          | none => false)
  else pairs

/-- `sum_values_by_criteria(transactions, value_column_header, **criteria)`
(lines 81-139).  Returns the sum of the converted value column over the
rows passing all criteria; `Except.error` models an uncaught exception. -/
def sum_values_by_criteria (t : Table) (valueCol : String)
    (criteria : List (String × Crit)) : Except String Rat :=
  if t.isEmpty then .ok 0
  else if hasCol t valueCol then
    match convertCol valueCol t with
    | .error e => .error e
    | .ok pairs =>
      match (match findVC criteria with
             | none => Except.ok pairs
             | some c => applyValueCondition c pairs) with
      | .error e => .error e
      | .ok pairs2 =>
        .ok ((((dropVC criteria).foldl
          (fun ps kc => applyCrit t valueCol ps kc.1 kc.2) pairs2).map
            (fun p => p.2)).sum)
  else .ok 0

/-! ### top_5_highest_transactions (analysis lines 142-173) -/

/-- Insertion of one element into a sorted list (the sorting primitive
used to model the pandas sorts; insertion sort computes the unique
arrangement sorted by the given total order, which is exactly what
pandas returns for the linear orders used below). -/
def insertBy (le : α → α → Bool) (x : α) : List α → List α
  | [] => [x]
  | y :: ys => if le x y then x :: y :: ys else y :: insertBy le x ys

/-- Insertion sort by a Boolean total order. -/
def sortBy (le : α → α → Bool) : List α → List α
  | [] => []
  | x :: xs => insertBy le x (sortBy le xs)

/-- Ranking order of `nlargest(5, 'VALUE_NUMERIC')` with its default
`keep='first'`: larger value first, ties by original position. -/
def nlargestLE (a b : Nat × Row × Rat) : Bool :=
  decide (b.2.2 < a.2.2) || (a.2.2 == b.2.2 && decide (a.1 ≤ b.1))

/-- `DataFrame.nlargest(n, column)` over (row, value) pairs: sort by
descending value with ties in original order, take the first `n`. -/
def nlargest (n : Nat) (pairs : List (Row × Rat)) : List (Row × Rat) :=
  ((sortBy nlargestLE pairs.enum).take n).map (fun p => p.2)

/-- `top_5_highest_transactions(transactions, category, month)`
(lines 142-173): optional exact category/month filters, rank by the
cleaned numeric value, keep the top five rows and drop the temporary
`VALUE_NUMERIC` column from the returned table. -/
def top_5_highest_transactions (t : Table) (category month : String) :
    Except String Table :=
  let f1 := if category ≠ "" then t.filter (fun r => r.CATEGORY == some category) else t
  let f2 := if month ≠ "" then f1.filter (fun r => r.MONTH == month) else f1
  match convertCol "VALUE" f2 with
  | .error e => .error e
  | .ok pairs =>
    .ok ((nlargest 5 pairs).map (fun p => { p.1 with VALUE_NUMERIC := none }))

/-! ### sum_expenses_by_category (analysis lines 176-213) -/

/-- Distinct elements in first-seen order (`Series.unique`, dict-key
order of a pandas groupby result viewed as a mapping). -/
def firstSeen : List String → List String
  | [] => []
  | k :: rest => k :: (firstSeen rest).filter (fun x => x ≠ k)

/-- String order used by pandas when sorting group keys. -/
def strLe (a b : String) : Bool := decide (a ≤ b)

/-- `groupby(key)[val].sum()`: one entry per distinct key (pandas sorts
the group keys), holding the sum of the values of that key's rows. -/
def groupSum (ps : List (String × Rat)) : List (String × Rat) :=
  (sortBy strLe (firstSeen (ps.map (fun p => p.1)))).map
    (fun k => (k, ((ps.filter (fun p => p.1 == k)).map (fun p => p.2)).sum))

/-- Python truthiness of the optional month argument (`if month:`):
false for `None` and for the empty string. -/
def monthTruthy : Option String → Bool
  | none => false
  | some m => m != ""

/-- `Series.isin` on the category column: the row's category is one of
the given category names (a missing category matches nothing). -/
def catIn (cats : List String) (r : Row) : Bool :=
  match r.CATEGORY with
  | some c => cats.contains c
  | none => false

/-- `sum_expenses_by_category(df, expense_cats, month)` (lines 176-213):
convert values, optionally filter by month, keep negative-valued rows of
the given categories, group by category, take absolute sums, drop
non-positive sums and fall back to the `{'No Expenses': 0}` sentinel. -/
def sum_expenses_by_category (t : Table) (expense_cats : List String)
    (month : Option String) : Except String (List (String × Rat)) :=
  match convertCol "VALUE" t with
  | .error e => .error e
  | .ok pairs =>
    let pairs1 := if monthTruthy month
      then pairs.filter (fun p => p.1.MONTH == month.getD "") else pairs
    let pairs2 := pairs1.filter (fun p =>
      catIn expense_cats p.1 && decide (p.2 < 0))
    let expenses := (groupSum (pairs2.map (fun p => (p.1.CATEGORY.getD "", p.2)))).map
      (fun kv => (kv.1, |kv.2|))
    let d := expenses.filter (fun kv => decide (0 < kv.2))
    if d.isEmpty then .ok [("No Expenses", 0)] else .ok d

/-! ### Derived financial metrics (analysis lines 216-284) -/

/-- `compute_cashflow` (lines 216-237): income sum plus the signed sum
over the concatenated expense, saving and investing category lists, with
an optional month criterion added to both calls. -/
def compute_cashflow (t : Table) (income_categories expense_categories
    saving_categories investing_categories : List String) (month : String) :
    Except String Rat := do
  if month ≠ "" then
    let total_income ← sum_values_by_criteria t "VALUE"
      [("CATEGORY", .listC income_categories), ("MONTH", .strC month)]
    let total_expenses ← sum_values_by_criteria t "VALUE"
      [("CATEGORY", .listC (expense_categories ++ saving_categories ++ investing_categories)),
       ("MONTH", .strC month)]
    return total_income + total_expenses
  else
    let total_income ← sum_values_by_criteria t "VALUE"
      [("CATEGORY", .listC income_categories)]
    let total_expenses ← sum_values_by_criteria t "VALUE"
      [("CATEGORY", .listC (expense_categories ++ saving_categories ++ investing_categories))]
    return total_income + total_expenses

/-- `compute_profit` (lines 240-259): like cashflow but deducting the
expense categories only. -/
def compute_profit (t : Table) (income_categories expense_categories : List String)
    (month : String) : Except String Rat := do
  if month ≠ "" then
    let total_income ← sum_values_by_criteria t "VALUE"
      [("CATEGORY", .listC income_categories), ("MONTH", .strC month)]
    let total_expenses ← sum_values_by_criteria t "VALUE"
      [("CATEGORY", .listC expense_categories), ("MONTH", .strC month)]
    return total_income + total_expenses
  else
    let total_income ← sum_values_by_criteria t "VALUE"
      [("CATEGORY", .listC income_categories)]
    let total_expenses ← sum_values_by_criteria t "VALUE"
      [("CATEGORY", .listC expense_categories)]
    return total_income + total_expenses

/-- A Python float result that may be the `float('inf')` sentinel. -/
inductive PyFloat where
  | fin (q : Rat)
  | inf
deriving DecidableEq, Repr

/-- `calculate_expense_ratio` (lines 262-284): absolute expense sum over
income sum, `float('inf')` when the income sum is exactly zero. -/
def calculate_expense_ratio (t : Table) (income_categories expense_categories : List String)
    (month : String) : Except String PyFloat := do
  let total_income ←
    (if month ≠ "" then
      sum_values_by_criteria t "VALUE"
        [("CATEGORY", .listC income_categories), ("MONTH", .strC month)]
    else
      sum_values_by_criteria t "VALUE" [("CATEGORY", .listC income_categories)])
  let e ←
    (if month ≠ "" then
      sum_values_by_criteria t "VALUE"
        [("CATEGORY", .listC expense_categories), ("MONTH", .strC month)]
    else
      sum_values_by_criteria t "VALUE" [("CATEGORY", .listC expense_categories)])
  let total_expenses := |e|
  if total_income = 0 then
    return .inf
  else
    return .fin (total_expenses / total_income)

/-! ### sum_amount_in_each_account (analysis lines 287-309) -/

/-- `sum_amount_in_each_account(transactions)` (lines 287-309).  The
function assigns the cleaned `VALUE` column and a new `VALUE_NUMERIC`
column on the caller's table (no `.copy()`), so alongside the per-account
sums we return the caller-visible state of the table: enriched on
success, untouched when the conversion raises. -/
def sum_amount_in_each_account (t : Table) :
    Except String (List (String × Rat)) × Table :=
  match convertCol "VALUE" t with
  | .error e => (.error e, t)
  | .ok pairs =>
    (.ok (groupSum (pairs.map (fun p => (p.1.ACCOUNT, p.2)))),
     pairs.map (fun p => { p.1 with VALUE_NUMERIC := some p.2 }))

/-! ### get_all_categories (analysis lines 26-78) -/

/-- The classification lists built by the loop of `get_all_categories`,
plus the categories reported by `logger.warning` (the code's diagnostic
for an unrecognized type). -/
structure CatLists where
  income : List String
  expense : List String
  saving : List String
  investment : List String
  warnings : List String
deriving DecidableEq, Repr

/-- The chained sentinel-exclusion filters of lines 37-41. -/
def exclFiltered (t : Table) : List Row :=
  ((((t.filter (fun r => r.CATEGORY != some "Exclude")).filter
      (fun r => r.CATEGORY != some "Starting Balance")).filter
      (fun r => r.CATEGORY != some "")).filter
      (fun r => r.CATEGORY.isSome)).filter
      (fun r => r.CATEGORY != some "None")

/-- The `TYPE` of the first row of a given category:
`df['TYPE'][df['CATEGORY'] == category].iloc[0]` (line 53), `none` when
no row matches. -/
def typeOfIn (df : List Row) (c : String) : Option String :=
  (df.find? (fun r => r.CATEGORY == some c)).map (fun r => r.TYPE)

/-- One iteration of the classification loop (lines 52-63): bucket the
category by the `TYPE` of its first occurrence, collecting unknown types
as warnings (the `logger.warning` diagnostic). -/
def classifyStep (df : List Row) (acc : CatLists) (category : String) : CatLists :=
  match typeOfIn df category with
  | some "income" => { acc with income := acc.income ++ [category] }
  | some "expense" => { acc with expense := acc.expense ++ [category] }
  | some "saving" => { acc with saving := acc.saving ++ [category] }
  | some "investment" => { acc with investment := acc.investment ++ [category] }
  | _ => { acc with warnings := acc.warnings ++ [category] }

/-- The classification loop of lines 43-63 over the distinct remaining
categories in first-seen order. -/
def classifyCategories (t : Table) : CatLists :=
  let df := exclFiltered t
  (firstSeen (df.filterMap (fun r => r.CATEGORY))).foldl (classifyStep df)
    ⟨[], [], [], [], []⟩

/-- The padded four-column rendering returned by `get_all_categories`
(lines 68-78): each list right-padded with a null marker to the length
of the longest. -/
structure CatDF where
  income : List (Option String)
  expense : List (Option String)
  saving : List (Option String)
  investment : List (Option String)
deriving DecidableEq, Repr

/-- `get_all_categories(df)` (lines 26-78). -/
def get_all_categories (t : Table) : CatDF :=
  let c := classifyCategories t
  let maxLen := max (max c.income.length c.expense.length)
    (max c.saving.length c.investment.length)
  ⟨c.income.map some ++ List.replicate (maxLen - c.income.length) none,
   c.expense.map some ++ List.replicate (maxLen - c.expense.length) none,
   c.saving.map some ++ List.replicate (maxLen - c.saving.length) none,
   c.investment.map some ++ List.replicate (maxLen - c.investment.length) none⟩

/-! ### Caller-visible table state (frame model)

`sum_values_by_criteria` works on `transactions.copy()` (line 96),
`top_5_highest_transactions` on `transactions.copy()` (line 153),
`sum_expenses_by_category` on `df.copy()` (line 188);
`get_all_categories` only rebinds its local `df` name (lines 37-41); the
metric functions delegate to `sum_values_by_criteria`.  The caller's
table afterwards is therefore the table passed in.
`sum_amount_in_each_account` is the exception: its caller-visible result
is the second component of the pair it returns. -/

/-- Caller's table after `sum_values_by_criteria`. -/
def post_sum_values (t : Table) : Table := t

/-- Caller's table after `top_5_highest_transactions`. -/
def post_top_5 (t : Table) : Table := t

/-- Caller's table after `sum_expenses_by_category`. -/
def post_sum_expenses (t : Table) : Table := t

/-- Caller's table after `get_all_categories`. -/
def post_get_all_categories (t : Table) : Table := t

/-- Caller's table after `compute_cashflow`. -/
def post_compute_cashflow (t : Table) : Table := t

/-- Caller's table after `compute_profit`. -/
def post_compute_profit (t : Table) : Table := t

/-- Caller's table after `calculate_expense_ratio`. -/
def post_calculate_expense_ratio (t : Table) : Table := t

/-- Caller's table after `sum_amount_in_each_account`. -/
def post_sum_amount (t : Table) : Table := (sum_amount_in_each_account t).2

/-! ### Specification-side vocabulary -/

/-- The numeric value a row contributes once the column conversion has
succeeded. -/
def rowValue (r : Row) : Rat := (convertValue r.VALUE).getD 0

/-- Every `VALUE` cell of the table parses after cleaning (what the
ingestion boundary guarantees). -/
def allValuesParse (t : Table) : Bool :=
  t.all (fun r => (convertValue r.VALUE).isSome)

/-- The month filter of the metric functions: no restriction for the
empty month, exact equality otherwise. -/
def monthSel (month : String) (r : Row) : Bool :=
  month == "" || r.MONTH == month

/-- Specification-side signed sum: the values of the rows in the given
categories passing the month filter. -/
def sumCats (t : Table) (cats : List String) (month : String) : Rat :=
  ((t.filter (fun r => catIn cats r && monthSel month r)).map rowValue).sum

/-- The pairing `convertCol` produces when every value parses. -/
def pairing (rows : List Row) : List (Row × Rat) :=
  rows.map (fun r => (r, rowValue r))

/-! ### Helper lemmas: column conversion -/

theorem cellStr_VALUE (r : Row) : cellStr r "VALUE" = r.VALUE := rfl

theorem allValuesParse_cons (r : Row) (rs : List Row) :
    allValuesParse (r :: rs) =
      ((convertValue r.VALUE).isSome && allValuesParse rs) := rfl

theorem convertCol_ok_iff (rows : List Row) (ps : List (Row × Rat)) :
    convertCol "VALUE" rows = .ok ps ↔
      allValuesParse rows = true ∧ ps = pairing rows := by
  induction rows generalizing ps with
  | nil => simp [convertCol, allValuesParse, pairing, eq_comm]
  | cons r rs ih =>
    rcases hp : parseFloatChars (cleanValue r.VALUE) with - | v
    · simp [convertCol, cellStr_VALUE, hp, allValuesParse_cons, convertValue]
    · have hv : rowValue r = v := by simp [rowValue, convertValue, hp]
      rcases hc : convertCol "VALUE" rs with e | qs
      · have hrs : allValuesParse rs ≠ true := by
          intro hall
          have h2 := (ih (pairing rs)).mpr ⟨hall, rfl⟩
          rw [hc] at h2; cases h2
        simp [convertCol, cellStr_VALUE, hp, hc, allValuesParse_cons, hrs]
      · obtain ⟨hallrs, hqs⟩ := (ih qs).mp hc
        subst hqs
        simp [convertCol, cellStr_VALUE, hp, hc, allValuesParse_cons, hallrs,
          convertValue, pairing, hv, eq_comm]

theorem convertCol_ok_of_allParse (rows : List Row)
    (h : allValuesParse rows = true) :
    convertCol "VALUE" rows = .ok (pairing rows) :=
  (convertCol_ok_iff rows (pairing rows)).mpr ⟨h, rfl⟩

theorem allValuesParse_filter (t : Table) (p : Row → Bool)
    (h : allValuesParse t = true) : allValuesParse (t.filter p) = true := by
  simp only [allValuesParse, List.all_eq_true] at h ⊢
  exact fun r hr => h r (List.mem_of_mem_filter hr)

/-! ### Helper lemmas: filters over the pairing -/

theorem pairing_filter (rows : List Row) (q : Row → Bool) :
    (pairing rows).filter (fun p => q p.1) = pairing (rows.filter q) := by
  induction rows with
  | nil => rfl
  | cons r rs ih =>
    simp only [pairing, List.map_cons, List.filter_cons] at ih ⊢
    by_cases hq : q r <;> simp [hq, ih]

theorem pairing_sum (rows : List Row) :
    ((pairing rows).map (fun p => p.2)).sum = (rows.map rowValue).sum := by
  simp [pairing, List.map_map, Function.comp_def]

/-! ### Helper lemmas: the criteria pipeline on category and month -/

theorem hasCol_VALUE (t : Table) : hasCol t "VALUE" = true := rfl

theorem applyCrit_CATEGORY (t : Table) (vc : String) (pairs : List (Row × Rat))
    (cats : List String) :
    applyCrit t vc pairs "CATEGORY" (.listC cats) =
      pairs.filter (fun p => catIn cats p.1) := rfl

theorem applyCrit_MONTH (t : Table) (vc : String) (pairs : List (Row × Rat))
    (m : String) (hm : hasOpSubstr m = false) :
    applyCrit t vc pairs "MONTH" (.strC m) =
      pairs.filter (fun p => p.1.MONTH == m) := by
  rw [applyCrit]
  simp only [hm]
  rfl

theorem filter_catIn_month (t : Table) (cats : List String) (m : String)
    (hm' : m ≠ "") :
    (t.filter (fun r => catIn cats r)).filter (fun r => r.MONTH == m) =
      t.filter (fun r => catIn cats r && monthSel m r) := by
  rw [List.filter_filter]
  apply List.filter_congr
  intro r _
  have : (m == "") = false := by simpa using hm'
  simp [monthSel, this, Bool.and_comm]

theorem sum_values_CATEGORY_MONTH (t : Table) (cats : List String) (m : String)
    (h : allValuesParse t = true) (hm : hasOpSubstr m = false) (hm' : m ≠ "") :
    sum_values_by_criteria t "VALUE"
      [("CATEGORY", .listC cats), ("MONTH", .strC m)] = .ok (sumCats t cats m) := by
  rcases ht : t with - | ⟨r, rs⟩
  · simp [sum_values_by_criteria, sumCats]
  rw [← ht]
  have hne : t.isEmpty = false := by rw [ht]; rfl
  rw [sum_values_by_criteria]
  simp only [hne, Bool.false_eq_true, if_false, hasCol_VALUE, if_true,
    convertCol_ok_of_allParse t h]
  have hfind : findVC [("CATEGORY", Crit.listC cats), ("MONTH", Crit.strC m)] = none := rfl
  have hdrop : dropVC [("CATEGORY", Crit.listC cats), ("MONTH", Crit.strC m)] =
      [("CATEGORY", Crit.listC cats), ("MONTH", Crit.strC m)] := rfl
  rw [hfind, hdrop]
  simp only [List.foldl_cons, List.foldl_nil]
  rw [applyCrit_CATEGORY, applyCrit_MONTH _ _ _ _ hm,
    pairing_filter t (fun r => catIn cats r),
    pairing_filter (t.filter (fun r => catIn cats r)) (fun r => r.MONTH == m),
    pairing_sum, filter_catIn_month t cats m hm', sumCats]

theorem sum_values_CATEGORY (t : Table) (cats : List String)
    (h : allValuesParse t = true) :
    sum_values_by_criteria t "VALUE" [("CATEGORY", .listC cats)] =
      .ok (sumCats t cats "") := by
  rcases ht : t with - | ⟨r, rs⟩
  · simp [sum_values_by_criteria, sumCats]
  rw [← ht]
  have hne : t.isEmpty = false := by rw [ht]; rfl
  rw [sum_values_by_criteria]
  simp only [hne, Bool.false_eq_true, if_false, hasCol_VALUE, if_true,
    convertCol_ok_of_allParse t h]
  have hfind : findVC [("CATEGORY", Crit.listC cats)] = none := rfl
  have hdrop : dropVC [("CATEGORY", Crit.listC cats)] =
      [("CATEGORY", Crit.listC cats)] := rfl
  rw [hfind, hdrop]
  simp only [List.foldl_cons, List.foldl_nil]
  rw [applyCrit_CATEGORY, pairing_filter t (fun r => catIn cats r), pairing_sum, sumCats]
  have heq : List.filter (fun r => catIn cats r) t =
      List.filter (fun r => catIn cats r && monthSel "" r) t :=
    List.filter_congr (fun r _ => by simp [monthSel])
  rw [heq]

/-! ### Fixtures used by witnesses -/

/-- A convenient row constructor for fixtures. -/
def mkRow (cat ty mon v : String) (acct : String := "Main") : Row :=
  ⟨"2025-01-01", "txn", some cat, acct, ty, mon, v, none⟩

/-- The spec's 3-row fixture: one income row +1000, one expense row
-400, one saving row -200. -/
def fixture3 : Table :=
  [mkRow "Salary" "income" "January" "1000",
   mkRow "Rent" "expense" "January" "-400",
   mkRow "Savings" "saving" "January" "-200"]

/-- A 2-row fixture with income 1000 and expense -700. -/
def fixtureRatio : Table :=
  [mkRow "Salary" "income" "January" "1000",
   mkRow "Rent" "expense" "January" "-700"]

/-- C4 (functional_correctness): `compute_cashflow` equals the signed
income-category sum plus the signed sum over the union (concatenation)
of the expense, saving and investment categories, and `compute_profit`
equals the signed income sum plus the signed expense-category sum only,
with any month filter applied identically to both sums.  (The witness
instantiates the spec's 3-row fixture: cashflow 400, profit 600.) -/
theorem claim_C4 (t : Table) (inc exp sav inv : List String) (m : String)
    (h : allValuesParse t = true) (hm : hasOpSubstr m = false) :
    compute_cashflow t inc exp sav inv m =
      .ok (sumCats t inc m + sumCats t (exp ++ sav ++ inv) m) ∧
    compute_profit t inc exp m =
      .ok (sumCats t inc m + sumCats t exp m) := by
  by_cases hm' : m = ""
  · subst hm'
    constructor
    · rw [compute_cashflow]
      simp only [ne_eq, not_true_eq_false, if_false,
        sum_values_CATEGORY t inc h, sum_values_CATEGORY t (exp ++ sav ++ inv) h]
      rfl
    · rw [compute_profit]
      simp only [ne_eq, not_true_eq_false, if_false,
        sum_values_CATEGORY t inc h, sum_values_CATEGORY t exp h]
      rfl
  · constructor
    · rw [compute_cashflow]
      simp only [ne_eq, hm', not_false_eq_true, if_true,
        sum_values_CATEGORY_MONTH t inc m h hm hm',
        sum_values_CATEGORY_MONTH t (exp ++ sav ++ inv) m h hm hm']
      rfl
    · rw [compute_profit]
      simp only [ne_eq, hm', not_false_eq_true, if_true,
        sum_values_CATEGORY_MONTH t inc m h hm hm',
        sum_values_CATEGORY_MONTH t exp m h hm hm']
      rfl

/-- Witness for C4 at the spec's 3-row fixture: cashflow 400 and profit
600. -/
theorem claim_C4_witness :
    allValuesParse fixture3 = true ∧ hasOpSubstr "" = false ∧
    compute_cashflow fixture3 ["Salary"] ["Rent"] ["Savings"] [] "" = .ok 400 ∧
    compute_profit fixture3 ["Salary"] ["Rent"] "" = .ok 600 := by
  refine ⟨by decide, by decide, ?_, ?_⟩
  · have e1 : sumCats fixture3 ["Salary"] "" +
        sumCats fixture3 (["Rent"] ++ ["Savings"] ++ []) "" = 400 := by
      rw [show sumCats fixture3 ["Salary"] "" = ratParts false 1000 0 + 0 from rfl,
        show sumCats fixture3 (["Rent"] ++ ["Savings"] ++ []) "" =
          ratParts true 400 0 + (ratParts true 200 0 + 0) from rfl]
      norm_num [ratParts]
    exact (claim_C4 fixture3 ["Salary"] ["Rent"] ["Savings"] [] ""
      (by decide) (by decide)).1.trans (congrArg Except.ok e1)
  · have e2 : sumCats fixture3 ["Salary"] "" + sumCats fixture3 ["Rent"] "" = 600 := by
      rw [show sumCats fixture3 ["Salary"] "" = ratParts false 1000 0 + 0 from rfl,
        show sumCats fixture3 ["Rent"] "" = ratParts true 400 0 + 0 from rfl]
      norm_num [ratParts]
    exact (claim_C4 fixture3 ["Salary"] ["Rent"] ["Savings"] [] ""
      (by decide) (by decide)).2.trans (congrArg Except.ok e2)

/-- C5 (error_handling): `calculate_expense_ratio` returns the absolute
value of the expense-category sum divided by the income-category sum,
and returns the infinity sentinel (not an exception) exactly when the
income sum is zero. -/
theorem ratio_tail (si se : Rat) :
    (do
      let total_income ← Except.ok (ε := String) si
      let e ← Except.ok (ε := String) se
      let total_expenses := |e|
      if total_income = 0 then
        return PyFloat.inf
      else
        return PyFloat.fin (total_expenses / total_income)) =
    Except.ok (if si = 0 then PyFloat.inf else .fin (|se| / si)) := by
  by_cases h0 : si = 0
  · subst h0; rfl
  · show (if si = 0 then Except.ok PyFloat.inf
        else Except.ok (PyFloat.fin (|se| / si))) = _
    rw [if_neg h0, if_neg h0]

theorem claim_C5 (t : Table) (inc exp : List String) (m : String)
    (h : allValuesParse t = true) (hm : hasOpSubstr m = false) :
    calculate_expense_ratio t inc exp m =
      .ok (if sumCats t inc m = 0 then PyFloat.inf
           else .fin (|sumCats t exp m| / sumCats t inc m)) := by
  by_cases hm' : m = ""
  · subst hm'
    rw [calculate_expense_ratio]
    simp only [ne_eq, not_true_eq_false, if_false,
      sum_values_CATEGORY t inc h, sum_values_CATEGORY t exp h]
    exact ratio_tail (sumCats t inc "") (sumCats t exp "")
  · rw [calculate_expense_ratio]
    simp only [ne_eq, hm', not_false_eq_true, if_true,
      sum_values_CATEGORY_MONTH t inc m h hm hm',
      sum_values_CATEGORY_MONTH t exp m h hm hm']
    exact ratio_tail (sumCats t inc m) (sumCats t exp m)

/-- Witness for C5: income 1000 with expense -700 gives ratio 7/10, and
zero income gives the infinity sentinel. -/
theorem claim_C5_witness :
    allValuesParse fixtureRatio = true ∧
    calculate_expense_ratio fixtureRatio ["Salary"] ["Rent"] "" =
      .ok (.fin (7 / 10)) ∧
    calculate_expense_ratio fixtureRatio [] ["Rent"] "" = .ok .inf := by
  refine ⟨by decide, ?_, ?_⟩
  · have hs1 : sumCats fixtureRatio ["Salary"] "" = 1000 := by
      rw [show sumCats fixtureRatio ["Salary"] "" = ratParts false 1000 0 + 0 from rfl]
      norm_num [ratParts]
    have hs2 : sumCats fixtureRatio ["Rent"] "" = -700 := by
      rw [show sumCats fixtureRatio ["Rent"] "" = ratParts true 700 0 + 0 from rfl]
      norm_num [ratParts]
    have e1 : (if sumCats fixtureRatio ["Salary"] "" = 0 then PyFloat.inf
        else PyFloat.fin (|sumCats fixtureRatio ["Rent"] ""| /
          sumCats fixtureRatio ["Salary"] "")) = .fin (7 / 10) := by
      rw [hs1, hs2]
      have hq : |(-700 : Rat)| / 1000 = 7 / 10 := by norm_num
      rw [if_neg (by norm_num), hq]
    exact (claim_C5 fixtureRatio ["Salary"] ["Rent"] ""
      (by decide) (by decide)).trans (congrArg Except.ok e1)
  · have e2 : (if sumCats fixtureRatio [] "" = 0 then PyFloat.inf
        else PyFloat.fin (|sumCats fixtureRatio ["Rent"] ""| /
          sumCats fixtureRatio [] "")) = PyFloat.inf := by
      rw [show sumCats fixtureRatio [] "" = (0 : Rat) from rfl]
      simp
    exact (claim_C5 fixtureRatio [] ["Rent"] ""
      (by decide) (by decide)).trans (congrArg Except.ok e2)

/-! ### Claim C1: the VALUE_CONDITION fallback policy -/

theorem dropVC_eq_of_findVC_none :
    ∀ (l : List (String × Crit)), findVC l = none → dropVC l = l
  | [], _ => rfl
  | kc :: rest, h => by
    rw [findVC] at h
    by_cases hk : kc.1 = "VALUE_CONDITION"
    · rw [if_pos hk] at h; cases h
    · rw [if_neg hk] at h
      rw [dropVC, List.filter_cons]
      have hd : (decide (kc.1 ≠ "VALUE_CONDITION")) = true := by simpa using hk
      rw [hd, if_pos rfl]
      exact congrArg (kc :: ·) (dropVC_eq_of_findVC_none rest h)

theorem applyVC_drop (cond : String) (pairs : List (Row × Rat))
    (hq : parseNumExpr cond = none)
    (h1 : cond.toList.contains '>' = false)
    (h2 : cond.toList.contains '<' = false) :
    applyValueCondition (.strC cond) pairs = .ok pairs := by
  rw [applyValueCondition]
  simp only [hq, h1, h2, Bool.false_eq_true, if_false]

/-- C1 (error_handling), corrected: when the query engine cannot
evaluate a `VALUE_CONDITION` expression, the engine falls back to
manual threshold parsing for `>` and `<` (keeping rows strictly
above/below the parsed threshold); an expression containing neither
`>` nor `<` is silently dropped, so the remaining criteria still apply
and the result set is widened.  (An expression containing `>` or `<`
whose remainder does not parse as a number instead raises — see the
counterexample.) -/
theorem claim_C1 (cond : String) (hq : parseNumExpr cond = none) :
    (∀ pairs, cond.toList.contains '>' = false → cond.toList.contains '<' = false →
      applyValueCondition (.strC cond) pairs = .ok pairs) ∧
    (∀ pairs th, cond.toList.contains '>' = true →
      parseFloatChars (trimChars (removeChar '>' cond.toList)) = some th →
      applyValueCondition (.strC cond) pairs =
        .ok (pairs.filter (fun p => decide (th < p.2)))) ∧
    (∀ pairs th, cond.toList.contains '>' = false → cond.toList.contains '<' = true →
      parseFloatChars (trimChars (removeChar '<' cond.toList)) = some th →
      applyValueCondition (.strC cond) pairs =
        .ok (pairs.filter (fun p => decide (p.2 < th)))) ∧
    (∀ (t : Table) (vcol : String) (rest : List (String × Crit)),
      cond.toList.contains '>' = false → cond.toList.contains '<' = false →
      findVC rest = none →
      sum_values_by_criteria t vcol (("VALUE_CONDITION", .strC cond) :: rest) =
        sum_values_by_criteria t vcol rest) := by
  refine ⟨fun pairs h1 h2 => applyVC_drop cond pairs hq h1 h2, ?_, ?_, ?_⟩
  · intro pairs th hgt hth
    rw [applyValueCondition]
    simp only [hq, hgt, if_true, hth]
  · intro pairs th hgt hlt hth
    rw [applyValueCondition]
    simp only [hq, hgt, Bool.false_eq_true, if_false, hlt, if_true, hth]
  · intro t vcol rest h1 h2 hr
    rw [sum_values_by_criteria, sum_values_by_criteria]
    by_cases he : t.isEmpty = true
    · rw [if_pos he, if_pos he]
    · rw [if_neg he, if_neg he]
      by_cases hc : hasCol t vcol = true
      · rw [if_pos hc, if_pos hc]
        rcases hcv : convertCol vcol t with e | pairs
        · rfl
        · have hfind : findVC (("VALUE_CONDITION", Crit.strC cond) :: rest) =
              some (.strC cond) := by rw [findVC]; rfl
          have hdropc : dropVC (("VALUE_CONDITION", Crit.strC cond) :: rest) =
              dropVC rest := by rw [dropVC, List.filter_cons]; rfl
          simp only [hfind, hr, hdropc, dropVC_eq_of_findVC_none rest hr,
            applyVC_drop cond pairs hq h1 h2]
      · rw [if_neg hc, if_neg hc]

/-- Witness for C1: a condition without `>`/`<` is dropped (so the
category criterion still applies), and a query-invalid condition
containing `>` falls back to strict-threshold filtering. -/
theorem claim_C1_witness :
    parseNumExpr "== abc" = none ∧
    applyValueCondition (.strC "== abc") (pairing fixtureRatio) =
      .ok (pairing fixtureRatio) ∧
    sum_values_by_criteria fixtureRatio "VALUE"
      [("VALUE_CONDITION", .strC "== abc"), ("CATEGORY", .listC ["Salary"])] =
      sum_values_by_criteria fixtureRatio "VALUE" [("CATEGORY", .listC ["Salary"])] ∧
    parseNumExpr ">> -300" = none ∧
    applyValueCondition (.strC ">> -300") (pairing fixtureRatio) =
      .ok ((pairing fixtureRatio).filter
        (fun p => decide (ratParts true 300 0 < p.2))) := by
  refine ⟨by decide, ?_, ?_, by decide, ?_⟩
  · exact (claim_C1 "== abc" (by decide)).1 (pairing fixtureRatio) (by decide) (by decide)
  · exact (claim_C1 "== abc" (by decide)).2.2.2 fixtureRatio "VALUE"
      [("CATEGORY", .listC ["Salary"])] (by decide) (by decide) (by decide)
  · exact (claim_C1 ">> -300" (by decide)).2.1 (pairing fixtureRatio)
      (ratParts true 300 0) (by decide) (by rfl)

/-- Counterexample for C1 as frozen: a malformed comparison expression
containing `>` whose remainder is not numeric makes the call raise
`ValueError` (the claim says any malformed expression other than the
`>`/`<` fallback is silently skipped so that the query never fails). -/
theorem claim_C1_counterexample :
    sum_values_by_criteria fixtureRatio "VALUE"
      [("VALUE_CONDITION", .strC "> abc")] = .error "ValueError" := rfl

/-! ### Claim C3: exception safety of the aggregation core -/

/-- A table whose `VALUE` field is a non-numeric string. -/
def fixtureBad : Table := [mkRow "Food" "expense" "January" "abc"]

theorem sum_values_ok (t : Table) (criteria : List (String × Crit))
    (h : allValuesParse t = true) (hvc : findVC criteria = none) :
    ∃ q, sum_values_by_criteria t "VALUE" criteria = .ok q := by
  by_cases he : t.isEmpty = true
  · exact ⟨0, by rw [sum_values_by_criteria, if_pos he]⟩
  · simp only [Bool.not_eq_true] at he
    rw [sum_values_by_criteria]
    simp only [he, Bool.false_eq_true, if_false, hasCol_VALUE, if_true,
      convertCol_ok_of_allParse t h, hvc]
    exact ⟨_, rfl⟩

theorem exists_ok_ite (c : Bool) (a b : List (String × Rat)) :
    ∃ d, (if c = true then Except.ok (ε := String) a else Except.ok b) = .ok d := by
  by_cases h : c = true
  · exact ⟨a, by rw [if_pos h]⟩
  · exact ⟨b, by rw [if_neg h]⟩

theorem allValuesParse_opt_filter (t : Table) (c : Bool) (p : Row → Bool)
    (h : allValuesParse t = true) :
    allValuesParse (if c then t.filter p else t) = true := by
  by_cases hc : c = true
  · rw [if_pos hc]; exact allValuesParse_filter t p h
  · simp only [Bool.not_eq_true] at hc
    rw [hc, if_neg (by simp)]; exact h

/-- C3 (safety), corrected: provided every `VALUE` cell parses after
cleaning and no `VALUE_CONDITION` criterion is used, none of the
aggregation-core operations raises an exception.  On a table whose
`VALUE` fields are empty or non-numeric strings the core itself raises
`ValueError` from its own float conversion — see the counterexample.
The ingestion boundary coerces malformed values to `0.0` only in the
derived `VALUE_NUMERIC` column and leaves the raw `VALUE` text in
place, so even ingested tables can make the core raise. -/
theorem claim_C3 (t : Table) (criteria : List (String × Crit))
    (inc exp sav inv : List String) (category month : String)
    (monthO : Option String)
    (h : allValuesParse t = true) (hvc : findVC criteria = none) :
    (∃ q, sum_values_by_criteria t "VALUE" criteria = .ok q) ∧
    (∃ out, top_5_highest_transactions t category month = .ok out) ∧
    (∃ d, sum_expenses_by_category t exp monthO = .ok d) ∧
    (∃ s, (sum_amount_in_each_account t).1 = .ok s) ∧
    (∃ q, compute_cashflow t inc exp sav inv month = .ok q) ∧
    (∃ q, compute_profit t inc exp month = .ok q) ∧
    (∃ x, calculate_expense_ratio t inc exp month = .ok x) := by
  refine ⟨sum_values_ok t criteria h hvc, ?_, ?_, ?_, ?_, ?_, ?_⟩
  · rw [top_5_highest_transactions]
    have h2 : allValuesParse
        (if month ≠ "" then
          (if category ≠ "" then t.filter (fun r => r.CATEGORY == some category) else t).filter
            (fun r => r.MONTH == month)
         else if category ≠ "" then t.filter (fun r => r.CATEGORY == some category) else t) = true := by
      by_cases hm : month = ""
      · simp only [hm, ne_eq, not_true_eq_false, if_false]
        by_cases hcat : category = ""
        · simp only [hcat, ne_eq, not_true_eq_false, if_false]; exact h
        · simp only [ne_eq, hcat, not_false_eq_true, if_true]
          exact allValuesParse_filter t _ h
      · simp only [ne_eq, hm, not_false_eq_true, if_true]
        apply allValuesParse_filter
        by_cases hcat : category = ""
        · simp only [hcat, not_true_eq_false, if_false]; exact h
        · simp only [hcat, not_false_eq_true, if_true]
          exact allValuesParse_filter t _ h
      
    rw [convertCol_ok_of_allParse _ h2]
    exact ⟨_, rfl⟩
  · rw [sum_expenses_by_category, convertCol_ok_of_allParse t h]
    exact exists_ok_ite _ _ _
  · rw [sum_amount_in_each_account, convertCol_ok_of_allParse t h]
    exact ⟨_, rfl⟩
  · rw [compute_cashflow]
    by_cases hm : month = ""
    · simp only [hm, ne_eq, not_true_eq_false, if_false]
      obtain ⟨q1, e1⟩ := sum_values_ok t [("CATEGORY", .listC inc)] h rfl
      obtain ⟨q2, e2⟩ := sum_values_ok t [("CATEGORY", .listC (exp ++ sav ++ inv))] h rfl
      rw [e1, e2]
      exact ⟨q1 + q2, rfl⟩
    · simp only [ne_eq, hm, not_false_eq_true, if_true]
      obtain ⟨q1, e1⟩ := sum_values_ok t
        [("CATEGORY", .listC inc), ("MONTH", .strC month)] h rfl
      obtain ⟨q2, e2⟩ := sum_values_ok t
        [("CATEGORY", .listC (exp ++ sav ++ inv)), ("MONTH", .strC month)] h rfl
      rw [e1, e2]
      exact ⟨q1 + q2, rfl⟩
  · rw [compute_profit]
    by_cases hm : month = ""
    · simp only [hm, ne_eq, not_true_eq_false, if_false]
      obtain ⟨q1, e1⟩ := sum_values_ok t [("CATEGORY", .listC inc)] h rfl
      obtain ⟨q2, e2⟩ := sum_values_ok t [("CATEGORY", .listC exp)] h rfl
      rw [e1, e2]
      exact ⟨q1 + q2, rfl⟩
    · simp only [ne_eq, hm, not_false_eq_true, if_true]
      obtain ⟨q1, e1⟩ := sum_values_ok t
        [("CATEGORY", .listC inc), ("MONTH", .strC month)] h rfl
      obtain ⟨q2, e2⟩ := sum_values_ok t
        [("CATEGORY", .listC exp), ("MONTH", .strC month)] h rfl
      rw [e1, e2]
      exact ⟨q1 + q2, rfl⟩
  · rw [calculate_expense_ratio]
    by_cases hm : month = ""
    · simp only [hm, ne_eq, not_true_eq_false, if_false]
      obtain ⟨q1, e1⟩ := sum_values_ok t [("CATEGORY", .listC inc)] h rfl
      obtain ⟨q2, e2⟩ := sum_values_ok t [("CATEGORY", .listC exp)] h rfl
      rw [e1, e2, ratio_tail q1 q2]
      exact ⟨_, rfl⟩
    · simp only [ne_eq, hm, not_false_eq_true, if_true]
      obtain ⟨q1, e1⟩ := sum_values_ok t
        [("CATEGORY", .listC inc), ("MONTH", .strC month)] h rfl
      obtain ⟨q2, e2⟩ := sum_values_ok t
        [("CATEGORY", .listC exp), ("MONTH", .strC month)] h rfl
      rw [e1, e2, ratio_tail q1 q2]
      exact ⟨_, rfl⟩

/-- Witness for C3 at the 3-row fixture. -/
theorem claim_C3_witness :
    (∃ q, sum_values_by_criteria fixture3 "VALUE" [] = .ok q) ∧
    (∃ out, top_5_highest_transactions fixture3 "Rent" "January" = .ok out) ∧
    (∃ d, sum_expenses_by_category fixture3 ["Rent"] (some "January") = .ok d) ∧
    (∃ s, (sum_amount_in_each_account fixture3).1 = .ok s) ∧
    (∃ q, compute_cashflow fixture3 ["Salary"] ["Rent"] ["Savings"] [] "January" = .ok q) ∧
    (∃ q, compute_profit fixture3 ["Salary"] ["Rent"] "January" = .ok q) ∧
    (∃ x, calculate_expense_ratio fixture3 ["Salary"] ["Rent"] "January" = .ok x) :=
  claim_C3 fixture3 [] ["Salary"] ["Rent"] ["Savings"] [] "Rent" "January"
    (some "January") (by decide) rfl

/-- Counterexample for C3 as frozen: a table whose `VALUE` field holds a
non-numeric string makes the criteria-summation core raise `ValueError`
instead of coercing the value to `0.0`. -/
theorem claim_C3_counterexample :
    sum_values_by_criteria fixtureBad "VALUE" [] = .error "ValueError" := rfl

/-! ### Claim C2: the engine does not mutate the caller's table -/

/-- A one-row table without the derived numeric column. -/
def fixtureAcct : Table := [mkRow "Salary" "income" "January" "5"]

theorem allValuesParse_pairing_map (rows : List Row) (f : Row × Rat → Row)
    (hf : ∀ p, (f p).VALUE = p.1.VALUE) (h : allValuesParse rows = true) :
    allValuesParse ((pairing rows).map f) = true := by
  induction rows with
  | nil => rfl
  | cons r rs ih =>
    rw [allValuesParse_cons, Bool.and_eq_true] at h
    show allValuesParse (f (r, rowValue r) :: (pairing rs).map f) = true
    rw [allValuesParse_cons, Bool.and_eq_true, hf]
    exact ⟨h.1, ih h.2⟩

theorem pairing_map_enrich (rows : List Row) :
    (pairing ((pairing rows).map
        (fun p => { p.1 with VALUE_NUMERIC := some p.2 }))).map
      (fun p => { p.1 with VALUE_NUMERIC := some p.2 }) =
    (pairing rows).map (fun p => { p.1 with VALUE_NUMERIC := some p.2 }) := by
  induction rows with
  | nil => rfl
  | cons r rs ih => exact congrArg₂ List.cons rfl ih

theorem post_sum_amount_idem (t : Table) :
    post_sum_amount (post_sum_amount t) = post_sum_amount t := by
  rcases hc : convertCol "VALUE" t with e | pairs
  · have h1 : post_sum_amount t = t := by
      rw [post_sum_amount, sum_amount_in_each_account, hc]
    rw [h1]; exact h1
  · obtain ⟨hall, hp⟩ := (convertCol_ok_iff t pairs).mp hc
    subst hp
    have h1 : post_sum_amount t =
        (pairing t).map (fun p => { p.1 with VALUE_NUMERIC := some p.2 }) := by
      rw [post_sum_amount, sum_amount_in_each_account, hc]
    rw [h1]
    have hall2 : allValuesParse
        ((pairing t).map (fun p => { p.1 with VALUE_NUMERIC := some p.2 })) = true :=
      allValuesParse_pairing_map t _ (fun _ => rfl) hall
    rw [post_sum_amount, sum_amount_in_each_account,
      convertCol_ok_of_allParse _ hall2]
    exact pairing_map_enrich t

/-- C2 (frame_effect), corrected: every query/metric operation except
`sum_amount_in_each_account` leaves the caller's table unchanged (they
work on a `.copy()` or only rebind a local name);
`sum_amount_in_each_account` enriches the caller's table in place with
the numeric projection, and that projection is idempotent. -/
theorem claim_C2 :
    (∀ t : Table, post_sum_values t = t ∧ post_top_5 t = t ∧
      post_sum_expenses t = t ∧ post_get_all_categories t = t ∧
      post_compute_cashflow t = t ∧ post_compute_profit t = t ∧
      post_calculate_expense_ratio t = t) ∧
    (∀ t : Table, post_sum_amount (post_sum_amount t) = post_sum_amount t) :=
  ⟨fun _ => ⟨rfl, rfl, rfl, rfl, rfl, rfl, rfl⟩, post_sum_amount_idem⟩

/-- Counterexample for C2 as frozen: `sum_amount_in_each_account` does
mutate the caller's table (it gains a `VALUE_NUMERIC` column), so the
universally quantified no-mutation claim fails on this operation. -/
theorem claim_C2_counterexample : post_sum_amount fixtureAcct ≠ fixtureAcct := by
  decide

/-! ### Claim C10: the returned top-5 table never carries VALUE_NUMERIC -/

/-- C10 (functional_correctness): the table returned by
`top_5_highest_transactions` never contains a `VALUE_NUMERIC` value: the
column is computed internally for ranking and dropped before returning,
even when the input table already carried it. -/
theorem claim_C10 (t : Table) (category month : String) (out : Table)
    (h : top_5_highest_transactions t category month = .ok out) :
    ∀ r ∈ out, r.VALUE_NUMERIC = none := by
  rw [top_5_highest_transactions] at h
  split at h
  · cases h
  · injection h with h
    subst h
    intro r hr
    simp only [List.mem_map] at hr
    obtain ⟨p, -, hp⟩ := hr
    rw [← hp]

/-- A one-row table that already carries the numeric column from
ingestion. -/
def fixtureNum : Table :=
  [{ mkRow "Salary" "income" "January" "1000" with VALUE_NUMERIC := some 1000 }]

/-- Witness for C10: on an input row carrying `VALUE_NUMERIC`, the
returned row has it dropped. -/
theorem claim_C10_witness :
    top_5_highest_transactions fixtureNum "" "" =
      .ok [mkRow "Salary" "income" "January" "1000"] ∧
    ∀ r ∈ [mkRow "Salary" "income" "January" "1000"], r.VALUE_NUMERIC = none := by
  have e : top_5_highest_transactions fixtureNum "" "" =
      .ok [mkRow "Salary" "income" "January" "1000"] := rfl
  exact ⟨e, claim_C10 fixtureNum "" "" _ e⟩

/-! ### Claim C6: category classification -/

/-- The sentinel exclusions of the claim: the two markers, the empty
string, the `"None"` literal, and a missing value. -/
def excludedCategory : Option String → Bool
  | none => true
  | some c => c == "Exclude" || c == "Starting Balance" || c == "" || c == "None"

/-- The rows that survive the sentinel exclusions. -/
def keptRows (t : Table) : List Row :=
  t.filter (fun r => !excludedCategory r.CATEGORY)

/-- The `TYPE` of a category's first non-excluded occurrence. -/
def firstTypeOf (t : Table) (c : String) : Option String :=
  typeOfIn (keptRows t) c

/-- An optional `TYPE` is one of the four recognized kinds. -/
def recogType (o : Option String) : Bool :=
  o == some "income" || o == some "expense" || o == some "saving" ||
    o == some "investment"

theorem someBeqSome (a b : String) : (some a == some b) = (a == b) := rfl

theorem exclFiltered_eq (t : Table) : exclFiltered t = keptRows t := by
  rw [exclFiltered, keptRows, List.filter_filter, List.filter_filter,
    List.filter_filter, List.filter_filter]
  apply List.filter_congr
  intro r _
  cases r.CATEGORY with
  | none => rfl
  | some c =>
    rcases e1 : (c == "Exclude") <;> rcases e2 : (c == "Starting Balance") <;>
      rcases e3 : (c == "") <;> rcases e4 : (c == "None") <;>
      simp [excludedCategory, bne, someBeqSome, e1, e2, e3, e4]

theorem firstSeen_nodup (l : List String) : (firstSeen l).Nodup := by
  induction l with
  | nil => exact List.nodup_nil
  | cons k rest ih =>
    rw [firstSeen, List.nodup_cons]
    refine ⟨fun hk => ?_, ih.filter _⟩
    have := List.of_mem_filter hk
    simp at this

theorem firstSeen_sublist (l : List String) : List.Sublist (firstSeen l) l := by
  induction l with
  | nil => exact List.Sublist.refl []
  | cons k rest ih =>
    rw [firstSeen]
    exact ((List.filter_sublist _).trans ih).cons₂ k

theorem mem_firstSeen (l : List String) (x : String) :
    x ∈ firstSeen l ↔ x ∈ l := by
  induction l with
  | nil => exact Iff.rfl
  | cons k rest ih =>
    rw [firstSeen]
    by_cases hx : x = k
    · subst hx; simp
    · simp only [List.mem_cons, List.mem_filter, ih, hx, false_or]
      simp [hx]

theorem classify_foldl (df : List Row) (cs : List String) (acc : CatLists) :
    cs.foldl (classifyStep df) acc =
      ⟨acc.income ++ cs.filter (fun c => typeOfIn df c == some "income"),
       acc.expense ++ cs.filter (fun c => typeOfIn df c == some "expense"),
       acc.saving ++ cs.filter (fun c => typeOfIn df c == some "saving"),
       acc.investment ++ cs.filter (fun c => typeOfIn df c == some "investment"),
       acc.warnings ++ cs.filter (fun c => !recogType (typeOfIn df c))⟩ := by
  induction cs generalizing acc with
  | nil => simp
  | cons c cs ih =>
    rw [List.foldl_cons, ih]
    rw [List.filter_cons, List.filter_cons, List.filter_cons, List.filter_cons,
      List.filter_cons]
    rw [classifyStep]
    rcases hty : typeOfIn df c with - | ty
    · simp [recogType]
    · by_cases h1 : ty = "income"
      · subst h1; simp [recogType]
      · by_cases h2 : ty = "expense"
        · subst h2; simp [recogType]
        · by_cases h3 : ty = "saving"
          · subst h3; simp [recogType]
          · by_cases h4 : ty = "investment"
            · subst h4; simp [recogType]
            · have harm : (match some ty with
                | some "income" => { acc with income := acc.income ++ [c] }
                | some "expense" => { acc with expense := acc.expense ++ [c] }
                | some "saving" => { acc with saving := acc.saving ++ [c] }
                | some "investment" => { acc with investment := acc.investment ++ [c] }
                | _ => { acc with warnings := acc.warnings ++ [c] }) =
                  { acc with warnings := acc.warnings ++ [c] } := by
                split
                · simp_all
                · simp_all
                · simp_all
                · simp_all
                · rfl
              rw [harm]
              simp [recogType, h1, h2, h3, h4]

/-- C6 (functional_correctness): `get_all_categories`' classification
excludes exactly the rows whose category is the Exclude marker, the
Starting Balance marker, the empty string, the literal None, or missing;
it buckets each remaining distinct category (first-seen order, no
duplicates) by the TYPE of its first occurrence into the four lists, and
a category with an unrecognized TYPE goes to the diagnostics instead of
raising. -/
theorem claim_C6 (t : Table) :
    exclFiltered t = keptRows t ∧
    ((firstSeen ((keptRows t).filterMap (fun r => r.CATEGORY))).Nodup ∧
      List.Sublist (firstSeen ((keptRows t).filterMap (fun r => r.CATEGORY)))
        ((keptRows t).filterMap (fun r => r.CATEGORY))) ∧
    (classifyCategories t).income =
      (firstSeen ((keptRows t).filterMap (fun r => r.CATEGORY))).filter
        (fun c => firstTypeOf t c == some "income") ∧
    (classifyCategories t).expense =
      (firstSeen ((keptRows t).filterMap (fun r => r.CATEGORY))).filter
        (fun c => firstTypeOf t c == some "expense") ∧
    (classifyCategories t).saving =
      (firstSeen ((keptRows t).filterMap (fun r => r.CATEGORY))).filter
        (fun c => firstTypeOf t c == some "saving") ∧
    (classifyCategories t).investment =
      (firstSeen ((keptRows t).filterMap (fun r => r.CATEGORY))).filter
        (fun c => firstTypeOf t c == some "investment") ∧
    (classifyCategories t).warnings =
      (firstSeen ((keptRows t).filterMap (fun r => r.CATEGORY))).filter
        (fun c => !recogType (firstTypeOf t c)) := by
  have he := exclFiltered_eq t
  have hcl : classifyCategories t =
      (firstSeen ((keptRows t).filterMap (fun r => r.CATEGORY))).foldl
        (classifyStep (keptRows t)) ⟨[], [], [], [], []⟩ := by
    rw [classifyCategories]
    rw [he]
  rw [hcl, classify_foldl]
  refine ⟨he, ⟨firstSeen_nodup _, firstSeen_sublist _⟩, ?_, ?_, ?_, ?_, ?_⟩ <;>
    simp [firstTypeOf]

/-! ### Sorting lemmas for the pandas-order model -/

theorem insertBy_perm (le : α → α → Bool) (x : α) (l : List α) :
    List.Perm (insertBy le x l) (x :: l) := by
  induction l with
  | nil => exact List.Perm.refl _
  | cons y ys ih =>
    rw [insertBy]
    by_cases h : le x y = true
    · rw [if_pos h]
    · rw [if_neg h]
      exact (ih.cons y).trans (List.Perm.swap x y ys)

theorem sortBy_perm (le : α → α → Bool) (l : List α) :
    List.Perm (sortBy le l) l := by
  induction l with
  | nil => exact List.Perm.refl _
  | cons x xs ih => exact (insertBy_perm le x (sortBy le xs)).trans (ih.cons x)

theorem mem_sortBy (le : α → α → Bool) (l : List α) (x : α) :
    x ∈ sortBy le l ↔ x ∈ l :=
  (sortBy_perm le l).mem_iff

theorem pairwise_insertBy (le : α → α → Bool)
    (htrans : ∀ a b c, le a b = true → le b c = true → le a c = true)
    (htot : ∀ a b, (le a b || le b a) = true) (x : α) (l : List α)
    (h : l.Pairwise (fun a b => le a b = true)) :
    (insertBy le x l).Pairwise (fun a b => le a b = true) := by
  induction l with
  | nil => simp [insertBy]
  | cons y ys ih =>
    rcases List.pairwise_cons.mp h with ⟨hy, hys⟩
    rw [insertBy]
    by_cases hxy : le x y = true
    · rw [if_pos hxy]
      refine List.Pairwise.cons ?_ h
      intro b hb
      rcases List.mem_cons.mp hb with rfl | hbys
      · exact hxy
      · exact htrans x y b hxy (hy b hbys)
    · rw [if_neg hxy]
      refine List.Pairwise.cons ?_ (ih hys)
      intro b hb
      rcases List.mem_cons.mp ((insertBy_perm le x ys).mem_iff.mp hb) with heq | hbys
      · subst heq
        rcases Bool.or_eq_true_iff.mp (htot b y) with h1 | h1
        · exact absurd h1 hxy
        · exact h1
      · exact hy b hbys

theorem sorted_sortBy (le : α → α → Bool)
    (htrans : ∀ a b c, le a b = true → le b c = true → le a c = true)
    (htot : ∀ a b, (le a b || le b a) = true) (l : List α) :
    (sortBy le l).Pairwise (fun a b => le a b = true) := by
  induction l with
  | nil => exact List.Pairwise.nil
  | cons x xs ih => exact pairwise_insertBy le htrans htot x (sortBy le xs) ih

/-! ### Claim C7: sum_expenses_by_category -/

theorem filter_map_comm (f : α → β) (p : β → Bool) (l : List α) :
    (l.map f).filter p = (l.filter (fun a => p (f a))).map f := by
  induction l with
  | nil => rfl
  | cons a as ih =>
    simp only [List.map_cons, List.filter_cons]
    by_cases h : p (f a) = true
    · rw [if_pos h, if_pos h, List.map_cons, ih]
    · rw [if_neg h, if_neg h, ih]

theorem pairing_filter2 (rows : List Row) (P : Row → Rat → Bool) :
    (pairing rows).filter (fun p => P p.1 p.2) =
      pairing (rows.filter (fun r => P r (rowValue r))) := by
  induction rows with
  | nil => rfl
  | cons r rs ih =>
    simp only [pairing, List.map_cons, List.filter_cons] at ih ⊢
    by_cases h : P r (rowValue r) = true
    · rw [if_pos h, if_pos h, List.map_cons, ih]
    · rw [if_neg h, if_neg h, ih]

theorem groupSum_mem (ps : List (String × Rat)) (k : String) (v : Rat) :
    (k, v) ∈ groupSum ps ↔
      k ∈ ps.map Prod.fst ∧
        v = ((ps.filter (fun p => p.1 == k)).map (fun p => p.2)).sum := by
  rw [groupSum]
  constructor
  · intro hmem
    obtain ⟨k', hk', heq⟩ := List.mem_map.mp hmem
    rw [Prod.mk.injEq] at heq
    obtain ⟨rfl, rfl⟩ := heq
    exact ⟨(mem_firstSeen _ _).mp ((mem_sortBy _ _ _).mp hk'), rfl⟩
  · rintro ⟨hk, rfl⟩
    exact List.mem_map.mpr
      ⟨k, (mem_sortBy _ _ _).mpr ((mem_firstSeen _ _).mpr hk), rfl⟩

theorem groupSum_keys (ps : List (String × Rat)) (k : String) :
    k ∈ (groupSum ps).map Prod.fst ↔ k ∈ ps.map Prod.fst := by
  rw [groupSum, List.map_map]
  constructor
  · intro hk
    obtain ⟨k', hk', heq⟩ := List.mem_map.mp hk
    have hk2 := (mem_firstSeen _ _).mp ((mem_sortBy _ _ _).mp hk')
    rw [← heq]
    exact hk2
  · intro hk
    exact List.mem_map.mpr
      ⟨k, (mem_sortBy _ _ _).mpr ((mem_firstSeen _ _).mpr hk), rfl⟩

theorem groupSum_keys_nodup (ps : List (String × Rat)) :
    ((groupSum ps).map Prod.fst).Nodup := by
  rw [groupSum, List.map_map]
  have : (Prod.fst ∘ fun k => (k,
      ((ps.filter (fun p => p.1 == k)).map (fun p => p.2)).sum)) = id := rfl
  rw [this, List.map_id]
  exact ((sortBy_perm _ _).nodup_iff).mpr (firstSeen_nodup _)

theorem sum_nonpos_of_neg (l : List Rat) (h : ∀ x ∈ l, x < 0) : l.sum ≤ 0 := by
  induction l with
  | nil => simp
  | cons x xs ih =>
    rw [List.sum_cons]
    have hx := h x (List.mem_cons_self x xs)
    have hxs := ih (fun z hz => h z (List.mem_cons_of_mem x hz))
    linarith

theorem sum_neg_of_neg (l : List Rat) (hne : l ≠ []) (h : ∀ x ∈ l, x < 0) :
    l.sum < 0 := by
  rcases l with - | ⟨x, xs⟩
  · cases hne rfl
  · rw [List.sum_cons]
    have hx := h x (List.mem_cons_self x xs)
    have hxs := sum_nonpos_of_neg xs (fun z hz => h z (List.mem_cons_of_mem x hz))
    linarith

theorem abs_sum_neg (l : List Rat) (h : ∀ x ∈ l, x < 0) :
    |l.sum| = (l.map (fun x => |x|)).sum := by
  induction l with
  | nil => simp
  | cons x xs ih =>
    rw [List.sum_cons, List.map_cons, List.sum_cons]
    have hx := h x (List.mem_cons_self x xs)
    have hxs : ∀ z ∈ xs, z < 0 := fun z hz => h z (List.mem_cons_of_mem x hz)
    have h1 : xs.sum ≤ 0 := sum_nonpos_of_neg xs hxs
    rw [abs_of_nonpos (by linarith), neg_add, ← ih hxs,
      abs_of_nonpos h1, abs_of_neg hx]

/-- The qualifying rows of `sum_expenses_by_category`: month filter when
given, category in the expense list, strictly negative value. -/
def qualRows (t : Table) (cats : List String) (month : Option String) : List Row :=
  t.filter (fun r =>
    (!monthTruthy month || r.MONTH == month.getD "") &&
    (catIn cats r && decide (rowValue r < 0)))

/-- The grouped absolute expense sums before the sentinel fallback. -/
def expensesOf (t : Table) (cats : List String) (month : Option String) :
    List (String × Rat) :=
  ((groupSum ((qualRows t cats month).map
      (fun r => (r.CATEGORY.getD "", rowValue r)))).map
    (fun kv => (kv.1, |kv.2|))).filter (fun kv => decide (0 < kv.2))

theorem sum_expenses_eq (t : Table) (cats : List String) (month : Option String)
    (h : allValuesParse t = true) :
    sum_expenses_by_category t cats month =
      if (expensesOf t cats month).isEmpty = true then .ok [("No Expenses", 0)]
      else .ok (expensesOf t cats month) := by
  rw [sum_expenses_by_category, convertCol_ok_of_allParse t h]
  have h1 : (if monthTruthy month = true
      then List.filter (fun p => p.1.MONTH == month.getD "") (pairing t)
      else pairing t) =
      pairing (if monthTruthy month = true
        then t.filter (fun r => r.MONTH == month.getD "") else t) := by
    by_cases hm : monthTruthy month = true
    · rw [if_pos hm, if_pos hm,
        pairing_filter t (fun r => r.MONTH == month.getD "")]
    · rw [if_neg hm, if_neg hm]
  have h2 : (pairing (if monthTruthy month = true
        then t.filter (fun r => r.MONTH == month.getD "") else t)).filter
      (fun p => catIn cats p.1 && decide (p.2 < 0)) =
      pairing (qualRows t cats month) := by
    rw [pairing_filter2 _ (fun r v => catIn cats r && decide (v < 0))]
    congr 1
    by_cases hm : monthTruthy month = true
    · rw [if_pos hm, List.filter_filter, qualRows]
      apply List.filter_congr
      intro r _
      rw [hm]
      rcases hb1 : (r.MONTH == month.getD "") <;>
        rcases hb2 : (catIn cats r && decide (rowValue r < 0)) <;>
        simp [hb1, hb2]
    · simp only [Bool.not_eq_true] at hm
      rw [hm, if_neg (by simp), qualRows]
      apply List.filter_congr
      intro r _
      rw [hm]
      rfl
  simp only [h1, h2]
  simp only [expensesOf, pairing, List.map_map]
  rfl

theorem qual_facts (t : Table) (cats : List String) (month : Option String)
    (r : Row) (hr : r ∈ qualRows t cats month) :
    rowValue r < 0 ∧ ∃ c, r.CATEGORY = some c ∧ c ∈ cats := by
  rw [qualRows] at hr
  obtain ⟨-, hp⟩ := List.mem_filter.mp hr
  rw [Bool.and_eq_true, Bool.and_eq_true] at hp
  obtain ⟨-, hcat, hneg⟩ := hp
  refine ⟨of_decide_eq_true hneg, ?_⟩
  cases hc : r.CATEGORY with
  | none =>
    simp only [catIn, hc] at hcat
    exact Bool.noConfusion hcat
  | some c =>
    simp only [catIn, hc] at hcat
    exact ⟨c, rfl, by simpa using hcat⟩

/-- C7 (functional_correctness): `sum_expenses_by_category` keeps
exactly the rows whose category is in the supplied list and whose value
is strictly negative (month-filtered when a month is given), groups them
by category summing absolute values — every resulting sum positive, so
no group is dropped by the zero-sum filter — and returns the
`{"No Expenses": 0}` sentinel exactly when no row qualifies. -/
theorem claim_C7 (t : Table) (cats : List String) (month : Option String)
    (h : allValuesParse t = true) :
    ∃ d, sum_expenses_by_category t cats month = .ok d ∧
      (qualRows t cats month = [] → d = [("No Expenses", 0)]) ∧
      (qualRows t cats month ≠ [] →
        ((d.map Prod.fst).Nodup ∧
         (∀ c, c ∈ d.map Prod.fst ↔
            ∃ r ∈ qualRows t cats month, r.CATEGORY = some c) ∧
         (∀ c v, (c, v) ∈ d →
            v = (((qualRows t cats month).filter
                  (fun r => r.CATEGORY == some c)).map
                  (fun r => |rowValue r|)).sum ∧ 0 < v))) := by
  have hQneg : ∀ r ∈ qualRows t cats month, rowValue r < 0 :=
    fun r hr => (qual_facts t cats month r hr).1
  have hpsneg : ∀ x ∈ (qualRows t cats month).map
      (fun r => (r.CATEGORY.getD "", rowValue r)), x.2 < 0 := by
    intro x hx
    obtain ⟨r, hr, rfl⟩ := List.mem_map.mp hx
    exact hQneg r hr
  have hgv : ∀ k v, (k, v) ∈ groupSum ((qualRows t cats month).map
      (fun r => (r.CATEGORY.getD "", rowValue r))) → v < 0 := by
    intro k v hkv
    obtain ⟨hk, hveq⟩ := (groupSum_mem _ k v).mp hkv
    obtain ⟨p, hp, hpk⟩ := List.mem_map.mp hk
    have hpfilter : p ∈ ((qualRows t cats month).map
        (fun r => (r.CATEGORY.getD "", rowValue r))).filter (fun q => q.1 == k) :=
      List.mem_filter.mpr ⟨hp, by simp [hpk]⟩
    have hmm := List.mem_map_of_mem (fun q => q.2) hpfilter
    rw [hveq]
    apply sum_neg_of_neg
    · intro hemp; rw [hemp] at hmm; exact List.not_mem_nil _ hmm
    · intro x hx
      obtain ⟨p', hp', rfl⟩ := List.mem_map.mp hx
      exact hpsneg p' (List.mem_of_mem_filter hp')
  by_cases hqe : qualRows t cats month = []
  · refine ⟨[("No Expenses", 0)], ?_, fun _ => rfl, fun hne => absurd hqe hne⟩
    rw [sum_expenses_eq t cats month h]
    have he : expensesOf t cats month = [] := by rw [expensesOf, hqe]; rfl
    rw [he]
    rfl
  · have hd_all : expensesOf t cats month =
        (groupSum ((qualRows t cats month).map
          (fun r => (r.CATEGORY.getD "", rowValue r)))).map
          (fun kv => (kv.1, |kv.2|)) := by
      rw [expensesOf]
      apply List.filter_eq_self.mpr
      intro kv hkv
      obtain ⟨⟨k, w⟩, hkw, rfl⟩ := List.mem_map.mp hkv
      have := hgv k w hkw
      simpa using abs_pos.mpr (ne_of_lt this)
    have hne : (expensesOf t cats month).isEmpty = false := by
      rcases hq : qualRows t cats month with - | ⟨r0, Q'⟩
      · exact absurd hq hqe
      · have hr0 : r0 ∈ qualRows t cats month := by rw [hq]; exact List.mem_cons_self r0 Q'
        have hc0 : r0.CATEGORY.getD "" ∈ ((qualRows t cats month).map
            (fun r => (r.CATEGORY.getD "", rowValue r))).map Prod.fst :=
          List.mem_map.mpr ⟨(r0.CATEGORY.getD "", rowValue r0),
            List.mem_map.mpr ⟨r0, hr0, rfl⟩, rfl⟩
        have hkg := (groupSum_keys _ _).mpr hc0
        obtain ⟨⟨k, w⟩, hkw, hkeq⟩ := List.mem_map.mp hkg
        have habs : (k, |w|) ∈ expensesOf t cats month := by
          rw [hd_all]
          exact List.mem_map.mpr ⟨(k, w), hkw, rfl⟩
        rcases hexp : expensesOf t cats month with - | ⟨e0, es⟩
        · rw [hexp] at habs; exact absurd habs (List.not_mem_nil _)
        · rfl
    have hok : sum_expenses_by_category t cats month =
        .ok (expensesOf t cats month) := by
      rw [sum_expenses_eq t cats month h, hne]
      rfl
    refine ⟨expensesOf t cats month, hok, fun habs => absurd habs hqe, fun _ => ?_⟩
    refine ⟨?_, ?_, ?_⟩
    · rw [hd_all, List.map_map]
      exact groupSum_keys_nodup _
    · intro c
      rw [hd_all, List.map_map]
      show c ∈ (groupSum ((qualRows t cats month).map
        (fun r => (r.CATEGORY.getD "", rowValue r)))).map Prod.fst ↔ _
      rw [groupSum_keys]
      constructor
      · intro hc
        obtain ⟨p, hp, hpc⟩ := List.mem_map.mp hc
        obtain ⟨r, hr, rfl⟩ := List.mem_map.mp hp
        obtain ⟨-, c', hc', -⟩ := qual_facts t cats month r hr
        refine ⟨r, hr, ?_⟩
        rw [hc'] at hpc ⊢
        simp only [Option.getD_some] at hpc
        rw [hpc]
      · rintro ⟨r, hr, hc⟩
        exact List.mem_map.mpr ⟨(r.CATEGORY.getD "", rowValue r),
          List.mem_map.mpr ⟨r, hr, rfl⟩, by rw [hc]; rfl⟩
    · intro c v hcv
      rw [hd_all] at hcv
      obtain ⟨⟨k, w⟩, hkw, heq⟩ := List.mem_map.mp hcv
      rw [Prod.mk.injEq] at heq
      obtain ⟨rfl, rfl⟩ := heq
      have hwneg := hgv k w hkw
      obtain ⟨-, hw⟩ := (groupSum_mem _ k w).mp hkw
      have hfilter : ((qualRows t cats month).map
          (fun r => (r.CATEGORY.getD "", rowValue r))).filter (fun q => q.1 == k) =
          ((qualRows t cats month).filter
            (fun r => r.CATEGORY == some k)).map
            (fun r => (r.CATEGORY.getD "", rowValue r)) := by
        rw [filter_map_comm (fun r => (r.CATEGORY.getD "", rowValue r))
          (fun q => q.1 == k) (qualRows t cats month)]
        congr 1
        apply List.filter_congr
        intro r hr
        obtain ⟨-, c', hc', -⟩ := qual_facts t cats month r hr
        rw [hc', someBeqSome]
        rfl
      rw [hfilter, List.map_map] at hw
      have hsnd : ((qualRows t cats month).filter
          (fun r => r.CATEGORY == some k)).map
          ((fun q : String × Rat => q.2) ∘ (fun r => (r.CATEGORY.getD "", rowValue r))) =
          ((qualRows t cats month).filter
            (fun r => r.CATEGORY == some k)).map rowValue := rfl
      rw [hsnd] at hw
      have hlneg : ∀ x ∈ ((qualRows t cats month).filter
          (fun r => r.CATEGORY == some k)).map rowValue, x < 0 := by
        intro x hx
        obtain ⟨r, hr, rfl⟩ := List.mem_map.mp hx
        exact hQneg r (List.mem_of_mem_filter hr)
      constructor
      · rw [hw, abs_sum_neg _ hlneg, List.map_map]
        rfl
      · exact abs_pos.mpr (ne_of_lt hwneg)

/-- Witness for C7 at the 3-row fixture with expense list `["Rent"]`. -/
theorem claim_C7_witness :
    ∃ d, sum_expenses_by_category fixture3 ["Rent"] none = .ok d ∧
      (qualRows fixture3 ["Rent"] none = [] → d = [("No Expenses", 0)]) ∧
      (qualRows fixture3 ["Rent"] none ≠ [] →
        ((d.map Prod.fst).Nodup ∧
         (∀ c, c ∈ d.map Prod.fst ↔
            ∃ r ∈ qualRows fixture3 ["Rent"] none, r.CATEGORY = some c) ∧
         (∀ c v, (c, v) ∈ d →
            v = (((qualRows fixture3 ["Rent"] none).filter
                  (fun r => r.CATEGORY == some c)).map
                  (fun r => |rowValue r|)).sum ∧ 0 < v))) :=
  claim_C7 fixture3 ["Rent"] none (by decide)

/-! ### Claim C8: the top-5 query -/

/-- The claim's filter: exact category and/or month match when the
corresponding argument is non-empty. -/
def filteredRows (t : Table) (category month : String) : List Row :=
  t.filter (fun r =>
    (category == "" || r.CATEGORY == some category) &&
    (month == "" || r.MONTH == month))

/-- Dropping the derived numeric column from a row. -/
def stripNumeric (r : Row) : Row := { r with VALUE_NUMERIC := none }

theorem nlargestLE_total : ∀ a b : Nat × Row × Rat,
    (nlargestLE a b || nlargestLE b a) = true := by
  intro a b
  rw [nlargestLE, nlargestLE]
  rcases lt_trichotomy a.2.2 b.2.2 with h | h | h
  · simp [decide_eq_true h]
  · have h1 : (a.2.2 == b.2.2) = true := beq_iff_eq.mpr h
    have h2 : (b.2.2 == a.2.2) = true := beq_iff_eq.mpr h.symm
    rcases Nat.le_total a.1 b.1 with h3 | h3
    · simp [h1, decide_eq_true h3]
    · simp [h2, decide_eq_true h3]
  · simp [decide_eq_true h]

theorem nlargestLE_trans : ∀ a b c : Nat × Row × Rat, nlargestLE a b = true →
    nlargestLE b c = true → nlargestLE a c = true := by
  intro a b c hab hbc
  rw [nlargestLE] at hab hbc ⊢
  rw [Bool.or_eq_true, Bool.and_eq_true] at hab hbc ⊢
  rcases hab with hab | ⟨habe, habi⟩ <;> rcases hbc with hbc | ⟨hbce, hbci⟩
  · exact Or.inl (decide_eq_true
      (lt_trans (of_decide_eq_true hbc) (of_decide_eq_true hab)))
  · left
    have h1 : b.2.2 < a.2.2 := of_decide_eq_true hab
    have he : b.2.2 = c.2.2 := beq_iff_eq.mp hbce
    exact decide_eq_true (he ▸ h1)
  · left
    have h1 : c.2.2 < b.2.2 := of_decide_eq_true hbc
    have he : a.2.2 = b.2.2 := beq_iff_eq.mp habe
    exact decide_eq_true (he ▸ h1)
  · right
    refine ⟨beq_iff_eq.mpr ((beq_iff_eq.mp habe).trans (beq_iff_eq.mp hbce)), ?_⟩
    exact decide_eq_true (le_trans (of_decide_eq_true habi) (of_decide_eq_true hbci))

theorem top5_filter_eq (t : Table) (category month : String) :
    (if month ≠ "" then
      (if category ≠ "" then t.filter (fun r => r.CATEGORY == some category)
       else t).filter (fun r => r.MONTH == month)
     else if category ≠ "" then t.filter (fun r => r.CATEGORY == some category)
     else t) =
    filteredRows t category month := by
  rw [filteredRows]
  by_cases hm : month = "" <;> by_cases hc : category = ""
  · subst hm; subst hc
    simp only [ne_eq, not_true_eq_false, if_false]
    exact (List.filter_eq_self.mpr (fun a _ => rfl)).symm
  · subst hm
    simp only [ne_eq, not_true_eq_false, if_false, hc, not_false_eq_true, if_true]
    apply List.filter_congr
    intro r _
    have h1 : (category == "") = false := by simpa using hc
    simp [h1]
  · subst hc
    simp only [ne_eq, hm, not_false_eq_true, if_true, not_true_eq_false, if_false]
    apply List.filter_congr
    intro r _
    have h1 : (month == "") = false := by simpa using hm
    simp [h1]
  · simp only [ne_eq, hm, hc, not_false_eq_true, if_true]
    rw [List.filter_filter]
    apply List.filter_congr
    intro r _
    have h1 : (category == "") = false := by simpa using hc
    have h2 : (month == "") = false := by simpa using hm
    rcases hb1 : (r.CATEGORY == some category) <;>
      rcases hb2 : (r.MONTH == month) <;> simp [h1, h2, hb1, hb2]

/-- C8 (functional_correctness): `top_5_highest_transactions` filters by
exact category/month match when those arguments are non-empty, then
returns the five rows of largest numeric value: the result length is
`min 5` of the filtered count (all rows when fewer than five), the rows
come sorted by non-increasing value, every returned value is at least
every omitted value, and within any class of equal values the original
row order is preserved (the returned class is a sublist of the filtered
class). -/
theorem claim_C8 (t : Table) (category month : String) (out : Table)
    (h : top_5_highest_transactions t category month = .ok out) :
    out.length = min 5 (filteredRows t category month).length ∧
    out.Pairwise (fun a b => rowValue b ≤ rowValue a) ∧
    (∃ rest, List.Perm (out ++ rest)
        ((filteredRows t category month).map stripNumeric) ∧
      ∀ a ∈ out, ∀ b ∈ rest, rowValue b ≤ rowValue a) ∧
    (∀ q : Rat, List.Sublist (out.filter (fun r => rowValue r == q))
      (((filteredRows t category month).map stripNumeric).filter
        (fun r => rowValue r == q))) := by
  rw [top_5_highest_transactions] at h
  split at h
  · cases h
  · rename_i pairs hconv
    rw [top5_filter_eq t category month] at hconv
    obtain ⟨hall, hpairs⟩ := (convertCol_ok_iff _ pairs).mp hconv
    subst hpairs
    injection h with h
    subst h
    have hout : (nlargest 5 (pairing (filteredRows t category month))).map
        (fun p => { p.1 with VALUE_NUMERIC := none }) =
        ((sortBy nlargestLE (pairing (filteredRows t category month)).enum).take 5).map
          (fun x => stripNumeric x.2.1) := by
      rw [nlargest, List.map_map]
      rfl
    rw [hout]
    have hSsorted : (sortBy nlargestLE
        (pairing (filteredRows t category month)).enum).Pairwise
        (fun a b => nlargestLE a b = true) :=
      sorted_sortBy nlargestLE nlargestLE_trans nlargestLE_total _
    have hEval : ∀ x ∈ (pairing (filteredRows t category month)).enum,
        x.2.2 = rowValue x.2.1 := by
      intro x hx
      have hx2 : x.2 ∈ pairing (filteredRows t category month) := by
        have hm := List.mem_map_of_mem Prod.snd hx
        rw [List.enum_map_snd] at hm
        exact hm
      obtain ⟨r, -, heq⟩ := List.mem_map.mp hx2
      rw [← heq]
    have hSval : ∀ x ∈ sortBy nlargestLE
        (pairing (filteredRows t category month)).enum, x.2.2 = rowValue x.2.1 :=
      fun x hx => hEval x ((sortBy_perm _ _).mem_iff.mp hx)
    have hEidx : ((pairing (filteredRows t category month)).enum).Pairwise
        (fun a b => a.1 < b.1) := by
      have hp := List.pairwise_lt_range (pairing (filteredRows t category month)).length
      rw [← List.enum_map_fst (pairing (filteredRows t category month))] at hp
      exact List.pairwise_map.mp hp
    have hSfst_nodup : ((sortBy nlargestLE
        (pairing (filteredRows t category month)).enum).map Prod.fst).Nodup := by
      have hperm := ((sortBy_perm nlargestLE
        (pairing (filteredRows t category month)).enum)).map Prod.fst
      have hnd : (((pairing (filteredRows t category month)).enum).map
          Prod.fst).Nodup := by
        rw [List.enum_map_fst]
        exact List.nodup_range _
      exact hperm.nodup_iff.mpr hnd
    have hlen : (sortBy nlargestLE
        (pairing (filteredRows t category month)).enum).length =
        (filteredRows t category month).length := by
      rw [(sortBy_perm nlargestLE _).length_eq, List.enum_length, pairing,
        List.length_map]
    refine ⟨?_, ?_, ?_, ?_⟩
    · rw [List.length_map, List.length_take, hlen]
    · apply List.pairwise_map.mpr
      apply List.Pairwise.imp_of_mem ?_
        (List.Pairwise.sublist (List.take_sublist 5 _) hSsorted)
      intro a b ha hb hab
      have hva : a.2.2 = rowValue a.2.1 :=
        hSval a ((List.take_sublist 5 _).subset ha)
      have hvb : b.2.2 = rowValue b.2.1 :=
        hSval b ((List.take_sublist 5 _).subset hb)
      show rowValue (stripNumeric b.2.1) ≤ rowValue (stripNumeric a.2.1)
      show rowValue b.2.1 ≤ rowValue a.2.1
      rw [← hva, ← hvb]
      rcases Bool.or_eq_true_iff.mp hab with h1 | h1
      · exact le_of_lt (of_decide_eq_true h1)
      · rw [Bool.and_eq_true] at h1
        exact le_of_eq (beq_iff_eq.mp h1.1).symm
    · refine ⟨((sortBy nlargestLE
        (pairing (filteredRows t category month)).enum).drop 5).map
          (fun x => stripNumeric x.2.1), ?_, ?_⟩
      · rw [← List.map_append, List.take_append_drop]
        refine ((sortBy_perm nlargestLE _).map
          (fun x => stripNumeric x.2.1)).trans ?_
        have heq : ((pairing (filteredRows t category month)).enum).map
            (fun x => stripNumeric x.2.1) =
            (filteredRows t category month).map stripNumeric := by
          have h1 : ((pairing (filteredRows t category month)).enum).map
              (fun x => stripNumeric x.2.1) =
              (((pairing (filteredRows t category month)).enum).map Prod.snd).map
                (fun p => stripNumeric p.1) := by
            rw [List.map_map]
            rfl
          rw [h1, List.enum_map_snd, pairing, List.map_map]
          rfl
        rw [heq]
      · intro a ha b hb
        obtain ⟨x, hx, rfl⟩ := List.mem_map.mp ha
        obtain ⟨y, hy, rfl⟩ := List.mem_map.mp hb
        have hcross : nlargestLE x y = true := by
          have hS2 := hSsorted
          rw [← List.take_append_drop 5 (sortBy nlargestLE
            (pairing (filteredRows t category month)).enum)] at hS2
          exact (List.pairwise_append.mp hS2).2.2 x hx y hy
        have hvx : x.2.2 = rowValue x.2.1 :=
          hSval x ((List.take_sublist 5 _).subset hx)
        have hvy : y.2.2 = rowValue y.2.1 :=
          hSval y ((List.drop_sublist 5 _).subset hy)
        show rowValue (stripNumeric y.2.1) ≤ rowValue (stripNumeric x.2.1)
        show rowValue y.2.1 ≤ rowValue x.2.1
        rw [← hvx, ← hvy]
        rcases Bool.or_eq_true_iff.mp hcross with h1 | h1
        · exact le_of_lt (of_decide_eq_true h1)
        · rw [Bool.and_eq_true] at h1
          exact le_of_eq (beq_iff_eq.mp h1.1).symm
    · intro q
      have hA : ((((sortBy nlargestLE
          (pairing (filteredRows t category month)).enum).take 5).map
            (fun x => stripNumeric x.2.1)).filter (fun r => rowValue r == q)) =
          (((sortBy nlargestLE
            (pairing (filteredRows t category month)).enum).take 5).filter
              (fun x => rowValue x.2.1 == q)).map (fun x => stripNumeric x.2.1) := by
        rw [filter_map_comm]
        rfl
      have hB := List.Sublist.filter (fun x : Nat × Row × Rat => rowValue x.2.1 == q)
        (List.take_sublist 5 (sortBy nlargestLE
          (pairing (filteredRows t category month)).enum))
      have hC : (sortBy nlargestLE
          (pairing (filteredRows t category month)).enum).filter
            (fun x => rowValue x.2.1 == q) =
          ((pairing (filteredRows t category month)).enum).filter
            (fun x => rowValue x.2.1 == q) := by
        have hpm := (sortBy_perm nlargestLE
          (pairing (filteredRows t category month)).enum).filter
            (fun x => rowValue x.2.1 == q)
        have hle : ((sortBy nlargestLE
            (pairing (filteredRows t category month)).enum).filter
              (fun x => rowValue x.2.1 == q)).Pairwise
            (fun a b : Nat × Row × Rat => a.1 ≤ b.1) := by
          apply List.Pairwise.imp_of_mem ?_
            (hSsorted.filter (fun x => rowValue x.2.1 == q))
          intro a b ha hb hab
          have hfa := List.of_mem_filter ha
          have hfb := List.of_mem_filter hb
          have hqa : rowValue a.2.1 = q := beq_iff_eq.mp hfa
          have hqb : rowValue b.2.1 = q := beq_iff_eq.mp hfb
          have hva : a.2.2 = rowValue a.2.1 := hSval a (List.mem_of_mem_filter ha)
          have hvb : b.2.2 = rowValue b.2.1 := hSval b (List.mem_of_mem_filter hb)
          rcases Bool.or_eq_true_iff.mp hab with h1 | h1
          · exfalso
            have hlt : b.2.2 < a.2.2 := of_decide_eq_true h1
            rw [hva, hvb, hqa, hqb] at hlt
            exact lt_irrefl q hlt
          · rw [Bool.and_eq_true] at h1
            exact of_decide_eq_true h1.2
        have hne : ((sortBy nlargestLE
            (pairing (filteredRows t category month)).enum).filter
              (fun x => rowValue x.2.1 == q)).Pairwise
            (fun a b : Nat × Row × Rat => a.1 ≠ b.1) := by
          have hnd := List.Nodup.sublist
            (List.Sublist.map Prod.fst
              (@List.filter_sublist (Nat × Row × Rat)
                (fun x => rowValue x.2.1 == q)
                (sortBy nlargestLE
                  (pairing (filteredRows t category month)).enum))) hSfst_nodup
          exact List.pairwise_map.mp hnd
        have hleft := (hle.and hne).imp
          (fun h => lt_of_le_of_ne h.1 h.2)
        have hright := hEidx.filter (fun x => rowValue x.2.1 == q)
        letI : IsAntisymm (Nat × Row × Rat) (fun a b => a.1 < b.1) :=
          ⟨fun a b h1 h2 => absurd h2 (Nat.lt_asymm h1)⟩
        exact List.eq_of_perm_of_sorted hpm hleft hright
      have hD : (((pairing (filteredRows t category month)).enum).filter
          (fun x => rowValue x.2.1 == q)).map (fun x => stripNumeric x.2.1) =
          ((filteredRows t category month).map stripNumeric).filter
            (fun r => rowValue r == q) := by
        rw [filter_map_comm stripNumeric (fun r => rowValue r == q)
          (filteredRows t category month)]
        have h1 : (((pairing (filteredRows t category month)).enum).filter
            (fun x => rowValue x.2.1 == q)).map (fun x => stripNumeric x.2.1) =
            ((((pairing (filteredRows t category month)).enum).filter
              (fun x => rowValue x.2.1 == q)).map Prod.snd).map
                (fun p => stripNumeric p.1) := by
          rw [List.map_map]
          rfl
        rw [h1]
        have h2 : (((pairing (filteredRows t category month)).enum).filter
            (fun x => rowValue x.2.1 == q)).map Prod.snd =
            (((pairing (filteredRows t category month)).enum).map Prod.snd).filter
              (fun p => rowValue p.1 == q) := by
          rw [filter_map_comm Prod.snd (fun p : Row × Rat => rowValue p.1 == q)]
        rw [h2, List.enum_map_snd,
          pairing_filter (filteredRows t category month) (fun r => rowValue r == q),
          pairing, List.map_map]
        rfl
      rw [hA]
      have hchain := List.Sublist.map (fun x => stripNumeric x.2.1) hB
      rw [hC, hD] at hchain
      exact hchain

/-- Witness for C8: the 3-row fixture with no filters returns all three
rows, sorted by descending value. -/
theorem claim_C8_witness :
    top_5_highest_transactions fixture3 "" "" =
      .ok [stripNumeric (mkRow "Salary" "income" "January" "1000"),
           stripNumeric (mkRow "Savings" "saving" "January" "-200"),
           stripNumeric (mkRow "Rent" "expense" "January" "-400")] ∧
    (min 5 (filteredRows fixture3 "" "").length = 3 ∧
     [stripNumeric (mkRow "Salary" "income" "January" "1000"),
      stripNumeric (mkRow "Savings" "saving" "January" "-200"),
      stripNumeric (mkRow "Rent" "expense" "January" "-400")].length =
        min 5 (filteredRows fixture3 "" "").length ∧
     List.Pairwise (fun a b => rowValue b ≤ rowValue a)
       [stripNumeric (mkRow "Salary" "income" "January" "1000"),
        stripNumeric (mkRow "Savings" "saving" "January" "-200"),
        stripNumeric (mkRow "Rent" "expense" "January" "-400")]) := by
  have e : top_5_highest_transactions fixture3 "" "" =
      .ok [stripNumeric (mkRow "Salary" "income" "January" "1000"),
           stripNumeric (mkRow "Savings" "saving" "January" "-200"),
           stripNumeric (mkRow "Rent" "expense" "January" "-400")] := by
    rw [top_5_highest_transactions]
    have hc : convertCol "VALUE" fixture3 = .ok (pairing fixture3) :=
      convertCol_ok_of_allParse fixture3 (by decide)
    have hfix : (if ("" : String) ≠ "" then
        (if ("" : String) ≠ "" then fixture3.filter
          (fun r => r.CATEGORY == some "") else fixture3).filter
          (fun r => r.MONTH == "")
       else if ("" : String) ≠ "" then fixture3.filter
        (fun r => r.CATEGORY == some "") else fixture3) = fixture3 := by
      simp
    rw [hfix, hc]
    have hval1 : rowValue (mkRow "Salary" "income" "January" "1000") =
        ratParts false 1000 0 := rfl
    have hval2 : rowValue (mkRow "Rent" "expense" "January" "-400") =
        ratParts true 400 0 := rfl
    have hval3 : rowValue (mkRow "Savings" "saving" "January" "-200") =
        ratParts true 200 0 := rfl
    have hv1 : ratParts false 1000 0 = 1000 := by norm_num [ratParts]
    have hv2 : ratParts true 400 0 = -400 := by norm_num [ratParts]
    have hv3 : ratParts true 200 0 = -200 := by norm_num [ratParts]
    have hpair : pairing fixture3 =
        [(mkRow "Salary" "income" "January" "1000", 1000),
         (mkRow "Rent" "expense" "January" "-400", -400),
         (mkRow "Savings" "saving" "January" "-200", -200)] := by
      show [(mkRow "Salary" "income" "January" "1000",
              rowValue (mkRow "Salary" "income" "January" "1000")),
            (mkRow "Rent" "expense" "January" "-400",
              rowValue (mkRow "Rent" "expense" "January" "-400")),
            (mkRow "Savings" "saving" "January" "-200",
              rowValue (mkRow "Savings" "saving" "January" "-200"))] = _
      rw [hval1, hval2, hval3, hv1, hv2, hv3]
    rw [hpair]
    show Except.ok ((nlargest 5
        [(mkRow "Salary" "income" "January" "1000", (1000 : Rat)),
         (mkRow "Rent" "expense" "January" "-400", -400),
         (mkRow "Savings" "saving" "January" "-200", -200)]).map
        (fun p => { p.1 with VALUE_NUMERIC := none })) = _
    unfold nlargest
    have s1 : insertBy nlargestLE
        (1, mkRow "Rent" "expense" "January" "-400", (-400 : Rat))
        [(2, mkRow "Savings" "saving" "January" "-200", -200)] =
        [(2, mkRow "Savings" "saving" "January" "-200", -200),
         (1, mkRow "Rent" "expense" "January" "-400", -400)] := by
      rw [insertBy, if_neg (by norm_num [nlargestLE])]
      rfl
    have s0 : insertBy nlargestLE
        (0, mkRow "Salary" "income" "January" "1000", (1000 : Rat))
        [(2, mkRow "Savings" "saving" "January" "-200", -200),
         (1, mkRow "Rent" "expense" "January" "-400", -400)] =
        [(0, mkRow "Salary" "income" "January" "1000", (1000 : Rat)),
         (2, mkRow "Savings" "saving" "January" "-200", -200),
         (1, mkRow "Rent" "expense" "January" "-400", -400)] := by
      rw [insertBy, if_pos (by norm_num [nlargestLE])]
    have hsort : sortBy nlargestLE
        ([(mkRow "Salary" "income" "January" "1000", (1000 : Rat)),
          (mkRow "Rent" "expense" "January" "-400", -400),
          (mkRow "Savings" "saving" "January" "-200", -200)]).enum =
        [(0, mkRow "Salary" "income" "January" "1000", (1000 : Rat)),
         (2, mkRow "Savings" "saving" "January" "-200", -200),
         (1, mkRow "Rent" "expense" "January" "-400", -400)] := by
      show insertBy nlargestLE
        (0, mkRow "Salary" "income" "January" "1000", (1000 : Rat))
        (insertBy nlargestLE (1, mkRow "Rent" "expense" "January" "-400", -400)
          [(2, mkRow "Savings" "saving" "January" "-200", -200)]) = _
      rw [s1, s0]
    rw [hsort]
    rfl
  refine ⟨e, by decide, ?_, ?_⟩
  · exact (claim_C8 fixture3 "" "" _ e).1
  · exact (claim_C8 fixture3 "" "" _ e).2.1

/-! ### Claim C9: digit arithmetic for the rendering round-trip -/

theorem charDigit_digitChar (d : Nat) (h : d < 10) :
    charDigit (Nat.digitChar d) = d := by
  interval_cases d <;> rfl

theorem digitChar_isDigit (d : Nat) (h : d < 10) :
    (Nat.digitChar d).isDigit = true := by
  interval_cases d <;> rfl

theorem digits_chars_all (n : Nat) : allDigits (natDigitChars n) = true := by
  rw [natDigitChars, allDigits, List.all_eq_true]
  intro c hc
  rw [List.mem_reverse, List.mem_map] at hc
  obtain ⟨d, hd, rfl⟩ := hc
  exact digitChar_isDigit d (Nat.digits_lt_base (by norm_num) hd)

theorem foldl_digit_chars (L : List Nat) (hL : ∀ d ∈ L, d < 10) (acc : Nat) :
    ((L.map Nat.digitChar).reverse).foldl (fun a c => 10 * a + charDigit c) acc =
      acc * 10 ^ L.length + Nat.ofDigits 10 L := by
  induction L generalizing acc with
  | nil => simp
  | cons d L ih =>
    rw [List.map_cons, List.reverse_cons, List.foldl_append,
      ih (fun x hx => hL x (List.mem_cons_of_mem d hx)),
      List.foldl_cons, List.foldl_nil,
      charDigit_digitChar d (hL d (List.mem_cons_self d L)),
      Nat.ofDigits_cons, List.length_cons]
    ring

theorem digitsToNat_natDigitChars (n : Nat) :
    digitsToNat (natDigitChars n) = n := by
  rw [digitsToNat, natDigitChars,
    foldl_digit_chars (Nat.digits 10 n)
      (fun d hd => Nat.digits_lt_base (by norm_num) hd) 0]
  simp [Nat.ofDigits_digits]

theorem digitsToNat_padZeros (m : Nat) (cs : List Char) :
    digitsToNat (padZeros m cs) = digitsToNat cs := by
  rw [padZeros, digitsToNat, digitsToNat, List.foldl_append]
  congr 1
  induction m - cs.length with
  | zero => rfl
  | succ j ih =>
    rw [List.replicate_succ, List.foldl_cons]
    exact ih

theorem allDigits_padZeros (m : Nat) (cs : List Char) (h : allDigits cs = true) :
    allDigits (padZeros m cs) = true := by
  rw [padZeros, allDigits, List.all_append]
  rw [allDigits] at h
  rw [h, Bool.and_true, List.all_eq_true]
  intro c hc
  rw [List.eq_of_mem_replicate hc]
  rfl

theorem length_padZeros (m : Nat) (cs : List Char) :
    (padZeros m cs).length = max m cs.length := by
  rw [padZeros, List.length_append, List.length_replicate]
  omega

/-! ### Claim C9: character classes and cleaning identities -/

theorem isDigit_char_facts (c : Char) (h : c.isDigit = true) :
    c ≠ '.' ∧ c ≠ 'K' ∧ c ≠ ',' ∧ c ≠ '-' ∧ c ≠ '+' ∧ isSpaceChar c = false := by
  refine ⟨?_, ?_, ?_, ?_, ?_, ?_⟩
  · intro heq; subst heq; exact absurd h (by decide)
  · intro heq; subst heq; exact absurd h (by decide)
  · intro heq; subst heq; exact absurd h (by decide)
  · intro heq; subst heq; exact absurd h (by decide)
  · intro heq; subst heq; exact absurd h (by decide)
  · rcases hb : isSpaceChar c with - | -
    · rfl
    · rw [isSpaceChar] at hb
      simp only [Bool.or_eq_true, decide_eq_true_eq] at hb
      rcases hb with ((h1 | h1) | h1) | h1 <;> (subst h1; exact absurd h (by decide))

theorem dropWhile_id_of_none (p : Char → Bool) (l : List Char)
    (h : ∀ c ∈ l, p c = false) : l.dropWhile p = l := by
  cases l with
  | nil => rfl
  | cons c cs => simp [List.dropWhile_cons, h c (List.mem_cons_self c cs)]

theorem trimChars_id (l : List Char) (h : ∀ c ∈ l, isSpaceChar c = false) :
    trimChars l = l := by
  rw [trimChars, dropWhile_id_of_none _ l h,
    dropWhile_id_of_none _ l.reverse (fun c hc => h c (List.mem_reverse.mp hc))]
  exact List.reverse_reverse l

theorem stripKc_id (cs : List Char) (h : ∀ c ∈ cs, c ≠ 'K') : stripKc cs = cs := by
  induction cs with
  | nil => rfl
  | cons c cs ih =>
    have hc : c ≠ 'K' := h c (List.mem_cons_self c cs)
    rw [stripKc.eq_def]
    split
    · rename_i heq
      injection heq with h1 h2
      exact absurd h1 hc
    · rename_i heq
      injection heq with h1 h2
      subst h1
      subst h2
      exact congrArg (c :: ·) (ih (fun x hx => h x (List.mem_cons_of_mem c hx)))
    · rename_i heq
      cases heq

/-! ### Claim C9: parsing the rendered numeral -/

theorem splitSign_digit (c : Char) (cs : List Char) (h : c.isDigit = true) :
    splitSign (c :: cs) = (false, c :: cs) := by
  rw [splitSign.eq_def]
  split
  · rename_i heq
    injection heq with h1 h2
    exact absurd h1 ((isDigit_char_facts c h).2.2.2.1)
  · rename_i heq
    injection heq with h1 h2
    exact absurd h1 ((isDigit_char_facts c h).2.2.2.2.1)
  · rfl

theorem takeWhile_dot (ip fp : List Char) (h : ∀ c ∈ ip, c ≠ '.') :
    (ip ++ '.' :: fp).takeWhile (fun c => c ≠ '.') = ip ∧
    (ip ++ '.' :: fp).dropWhile (fun c => c ≠ '.') = '.' :: fp := by
  induction ip with
  | nil =>
    constructor
    · rw [List.nil_append, List.takeWhile_cons]
      simp
    · rw [List.nil_append, List.dropWhile_cons]
      simp
  | cons c ip ih =>
    obtain ⟨ih1, ih2⟩ := ih (fun x hx => h x (List.mem_cons_of_mem c hx))
    have hc : c ≠ '.' := h c (List.mem_cons_self c ip)
    constructor
    · rw [List.cons_append, List.takeWhile_cons]
      rw [if_pos (by simpa using hc)]
      rw [ih1]
    · rw [List.cons_append, List.dropWhile_cons]
      rw [if_pos (by simpa using hc)]
      rw [ih2]

theorem parseFloat_mk (neg : Bool) (ip fp : List Char)
    (hipne : ip ≠ []) (hipdig : allDigits ip = true) (hfpdig : allDigits fp = true) :
    parseFloatChars ((if neg then ['-'] else []) ++ ip ++ '.' :: fp) =
      some (ratParts neg (digitsToNat (ip ++ fp)) fp.length) := by
  have hipdig' : ∀ c ∈ ip, c.isDigit = true := by
    rw [allDigits, List.all_eq_true] at hipdig
    exact hipdig
  have hfpdig' : ∀ c ∈ fp, c.isDigit = true := by
    rw [allDigits, List.all_eq_true] at hfpdig
    exact hfpdig
  have hipdot : ∀ c ∈ ip, c ≠ '.' :=
    fun c hc => (isDigit_char_facts c (hipdig' c hc)).1
  have hfpdot : ∀ c ∈ fp, c ≠ '.' :=
    fun c hc => (isDigit_char_facts c (hfpdig' c hc)).1
  obtain ⟨tw, dw⟩ := takeWhile_dot ip fp hipdot
  rcases hip : ip with - | ⟨c0, ip'⟩
  · exact absurd hip hipne
  rw [← hip]
  have hsplit : splitSign ((if neg then ['-'] else []) ++ ip ++ '.' :: fp) =
      (neg, ip ++ '.' :: fp) := by
    rcases neg with - | -
    · rw [if_neg (by simp), List.nil_append, hip]
      exact splitSign_digit c0 (ip' ++ '.' :: fp)
        (hipdig' c0 (by rw [hip]; exact List.mem_cons_self c0 ip'))
    · rw [if_pos rfl]
      rfl
  rw [parseFloatChars, hsplit]
  simp only [tw, dw]
  rw [if_pos ?_]
  · constructor
    · rw [List.all_eq_true]
      intro c hc
      simp only [decide_eq_true_eq]
      exact hfpdot c hc
    · exact ⟨hipdig, hfpdig, Or.inl hipne⟩

/-! ### Claim C9: denominators of parsed values -/

theorem ratParts_den_dvd (neg : Bool) (n k : Nat) :
    (ratParts neg n k).den ∣ 10 ^ k := by
  have hbase : ((n : Rat) / (10 ^ k : Rat)).den ∣ 10 ^ k := by
    have h1 : ((n : Rat) / (10 ^ k : Rat)) =
        Rat.divInt (n : ℤ) ((10 ^ k : ℕ) : ℤ) := by
      rw [Rat.divInt_eq_div]
      push_cast
      ring
    rw [h1]
    have h2 := Rat.den_dvd (n : ℤ) ((10 ^ k : ℕ) : ℤ)
    rwa [Int.natCast_dvd_natCast] at h2
  rcases neg with - | -
  · rw [ratParts, if_neg (by simp), one_mul]
    exact hbase
  · rw [ratParts, if_pos rfl]
    have : (-1 : Rat) * ((n : Rat) / (10 ^ k : Rat)) =
        -((n : Rat) / (10 ^ k : Rat)) := by ring
    rw [this, Rat.neg_den]
    exact hbase

theorem parse_result_den (cs : List Char) (q : Rat)
    (h : parseFloatChars cs = some q) : ∃ k, q.den ∣ 10 ^ k := by
  rw [parseFloatChars] at h
  split at h
  · split at h
    · injection h with h
      exact ⟨0, h ▸ ratParts_den_dvd _ _ 0⟩
    · cases h
  · split at h
    · injection h with h
      exact ⟨_, h ▸ ratParts_den_dvd _ _ _⟩
    · cases h

theorem dvd_ten_pow_self : ∀ d : Nat, (∃ k, d ∣ 10 ^ k) → d ∣ 10 ^ d := by
  intro d
  induction d using Nat.strong_induction_on with
  | _ d ih =>
    intro h
    obtain ⟨k, hk⟩ := h
    rcases Nat.lt_or_ge d 2 with hd2 | hd2
    · interval_cases d
      · exfalso
        have h0 := Nat.eq_zero_of_zero_dvd hk
        exact absurd h0 (by positivity)
      · exact one_dvd _
    · have hp := Nat.minFac_prime (show d ≠ 1 by omega)
      have hpd : d.minFac ∣ d := Nat.minFac_dvd d
      have hp10 : d.minFac ∣ 10 := hp.dvd_of_dvd_pow (dvd_trans hpd hk)
      have hdp_lt : d / d.minFac < d := Nat.div_lt_self (by omega) hp.two_le
      have hdp_dvd : (d / d.minFac) ∣ 10 ^ k :=
        dvd_trans (Nat.div_dvd_of_dvd hpd) hk
      have ih1 := ih (d / d.minFac) hdp_lt ⟨k, hdp_dvd⟩
      have h2 : (d / d.minFac) ∣ 10 ^ (d - 1) :=
        dvd_trans ih1 (pow_dvd_pow 10 (by omega))
      have h3 : d.minFac * (d / d.minFac) ∣ 10 * 10 ^ (d - 1) :=
        mul_dvd_mul hp10 h2
      have hdec : d.minFac * (d / d.minFac) = d := Nat.mul_div_cancel' hpd
      have h4 : (10 : ℕ) ^ d = 10 * 10 ^ (d - 1) := by
        rw [show d = (d - 1) + 1 by omega]
        rw [pow_succ']
        rw [show d - 1 + 1 - 1 = d - 1 by omega]
      rw [h4]
      simpa [hdec] using h3

/-! ### Claim C9: the rendering digits -/

theorem pyDs_all (q : Rat) : allDigits (pyDs q) = true :=
  allDigits_padZeros _ _ (digits_chars_all _)

theorem pyDs_len (q : Rat) : pyK q + 1 ≤ (pyDs q).length := by
  rw [pyDs, length_padZeros]
  omega

theorem pyIp_append_pyFp (q : Rat) : pyIp q ++ pyFp q = pyDs q :=
  List.take_append_drop _ _

theorem pyFp_len (q : Rat) : (pyFp q).length = pyK q := by
  rw [pyFp, List.length_drop]
  have h := pyDs_len q
  omega

theorem pyIp_ne (q : Rat) : pyIp q ≠ [] := by
  have hlen := pyDs_len q
  rw [pyIp]
  intro h
  have hl := congrArg List.length h
  rw [List.length_take, List.length_nil] at hl
  omega

theorem pyIp_all (q : Rat) : allDigits (pyIp q) = true := by
  rw [allDigits, List.all_eq_true]
  intro c hc
  have hall := pyDs_all q
  rw [allDigits, List.all_eq_true] at hall
  exact hall c (List.mem_of_mem_take hc)

theorem pyFp_all (q : Rat) : allDigits (pyFp q) = true := by
  rw [allDigits, List.all_eq_true]
  intro c hc
  have hall := pyDs_all q
  rw [allDigits, List.all_eq_true] at hall
  exact hall c (List.mem_of_mem_drop hc)

theorem digitsToNat_pyDs (q : Rat) : digitsToNat (pyDs q) = pyN q := by
  rw [pyDs, digitsToNat_padZeros, digitsToNat_natDigitChars]

/-! ### Claim C9: evaluating the rendered digits back to the value -/

theorem ratParts_eval (v : Rat) (k : Nat) (hden : v.den ∣ 10 ^ k) :
    ratParts (decide (v.num < 0)) (v.num.natAbs * (10 ^ k / v.den)) k = v := by
  have hc : ((10 ^ k / v.den) * v.den : Nat) = 10 ^ k := Nat.div_mul_cancel hden
  have hd0 : ((v.den : Nat) : Rat) ≠ 0 :=
    Nat.cast_ne_zero.mpr (Nat.pos_iff_ne_zero.mp (Rat.den_pos v))
  have hc0 : (((10 ^ k / v.den : Nat)) : Rat) ≠ 0 := by
    have hp : 0 < 10 ^ k / v.den :=
      Nat.div_pos (Nat.le_of_dvd (by positivity) hden) (Rat.den_pos v)
    exact Nat.cast_ne_zero.mpr (Nat.pos_iff_ne_zero.mp hp)
  have key : ((v.num.natAbs * (10 ^ k / v.den) : Nat) : Rat) / (10 : Rat) ^ k
      = ((v.num.natAbs : Nat) : Rat) / ((v.den : Nat) : Rat) := by
    have h10 : ((10 : Rat) ^ k) = (((10 ^ k / v.den) * v.den : Nat) : Rat) := by
      rw [hc]
      push_cast
      ring
    rw [h10]
    push_cast
    rw [div_eq_div_iff (mul_ne_zero hc0 hd0) hd0]
    ring
  rw [ratParts, key]
  rcases lt_or_le v.num 0 with hv1 | hv1
  · rw [if_pos (decide_eq_true hv1)]
    have habs : ((v.num.natAbs : Nat) : Rat) = -((v.num : Int) : Rat) := by
      rw [Int.cast_natAbs]
      exact_mod_cast abs_of_neg hv1
    rw [habs]
    have hflip : (-1 : Rat) * (-((v.num : Int) : Rat) / ((v.den : Nat) : Rat)) =
        ((v.num : Int) : Rat) / ((v.den : Nat) : Rat) := by ring
    rw [hflip, Rat.num_div_den]
  · rw [if_neg (by simp only [decide_eq_true_eq]; exact not_lt.mpr hv1)]
    have habs : ((v.num.natAbs : Nat) : Rat) = ((v.num : Int) : Rat) := by
      rw [Int.cast_natAbs]
      exact_mod_cast abs_of_nonneg hv1
    rw [habs, one_mul, Rat.num_div_den]

/-! ### Claim C9: parsing the rendering of a finite-decimal value -/

theorem parse_pyStr (v : Rat) (hden : v.den ∣ 10 ^ pyK v) :
    parseFloatChars (pyStr v).toList = some v := by
  have hts : (pyStr v).toList =
      (if v.num < 0 then ['-'] else []) ++ pyIp v ++ '.' :: pyFp v := rfl
  have he := ratParts_eval v (pyK v) hden
  rcases lt_or_le v.num 0 with hv1 | hv1
  · rw [hts, if_pos hv1]
    have h1 := parseFloat_mk true (pyIp v) (pyFp v)
      (pyIp_ne v) (pyIp_all v) (pyFp_all v)
    rw [if_pos rfl] at h1
    rw [h1, pyIp_append_pyFp, digitsToNat_pyDs, pyFp_len]
    rw [decide_eq_true hv1] at he
    rw [pyN]
    exact congrArg some he
  · rw [hts, if_neg (not_lt.mpr hv1)]
    have h1 := parseFloat_mk false (pyIp v) (pyFp v)
      (pyIp_ne v) (pyIp_all v) (pyFp_all v)
    rw [if_neg (by decide)] at h1
    rw [h1, pyIp_append_pyFp, digitsToNat_pyDs, pyFp_len]
    rw [decide_eq_false (not_lt.mpr hv1)] at he
    rw [pyN]
    exact congrArg some he

theorem pyStr_chars (v : Rat) : ∀ c ∈ (pyStr v).toList,
    c.isDigit = true ∨ c = '-' ∨ c = '.' := by
  intro c hc
  have hts : (pyStr v).toList =
      (if v.num < 0 then ['-'] else []) ++ pyIp v ++ '.' :: pyFp v := rfl
  rw [hts] at hc
  rcases List.mem_append.mp hc with h12 | h4
  · rcases List.mem_append.mp h12 with h1 | h3
    · by_cases hn : v.num < 0
      · rw [if_pos hn] at h1
        right; left
        simpa using h1
      · rw [if_neg hn] at h1
        exact absurd h1 (List.not_mem_nil c)
    · left
      have hall := pyIp_all v
      rw [allDigits, List.all_eq_true] at hall
      exact hall c h3
  · rcases List.mem_cons.mp h4 with h5 | h6
    · right; right; exact h5
    · left
      have hall := pyFp_all v
      rw [allDigits, List.all_eq_true] at hall
      exact hall c h6

/-! ### Claim C9: the ingestion pipeline on the rendered value -/

theorem normalize_value_eval (s : String) :
    normalize_value s =
      (parseFloatChars (removeChar ' ' (removeChar ',' (stripKc
        (if trimChars s.toList = [] then ['0'] else trimChars s.toList))))).getD 0 := rfl

/-- C9 (algebraic_relational): value normalization (strip whitespace,
currency marker and separators, parse as float, `0.0` on failure) is
idempotent: normalizing the decimal string rendering of an
already-normalized value yields the same number as the first
normalization. -/
theorem claim_C9 (s : String) :
    normalize_value (pyStr (normalize_value s)) = normalize_value s := by
  set v := normalize_value s with hv
  have hden10 : ∃ k, v.den ∣ 10 ^ k := by
    have hv2 : v = (parseFloatChars (removeChar ' ' (removeChar ',' (stripKc
        (if trimChars s.toList = [] then ['0'] else trimChars s.toList))))).getD 0 :=
      hv.trans (normalize_value_eval s)
    rcases hp : parseFloatChars (removeChar ' ' (removeChar ',' (stripKc
        (if trimChars s.toList = [] then ['0'] else trimChars s.toList)))) with - | q
    · rw [hp] at hv2
      refine ⟨0, ?_⟩
      rw [hv2]
      norm_num [Option.getD]
    · rw [hp, Option.getD_some] at hv2
      rw [hv2]
      exact parse_result_den _ q hp
  have hden : v.den ∣ 10 ^ pyK v :=
    dvd_trans (dvd_ten_pow_self v.den hden10) (pow_dvd_pow 10 (le_max_right 1 v.den))
  have hchars := pyStr_chars v
  have hnospace : ∀ c ∈ (pyStr v).toList, isSpaceChar c = false := by
    intro c hc
    rcases hchars c hc with hd | h | h
    · exact (isDigit_char_facts c hd).2.2.2.2.2
    · subst h; decide
    · subst h; decide
  have hnoK : ∀ c ∈ (pyStr v).toList, c ≠ 'K' := by
    intro c hc
    rcases hchars c hc with hd | h | h
    · exact (isDigit_char_facts c hd).2.1
    · subst h; decide
    · subst h; decide
  have hnoComma : ∀ c ∈ (pyStr v).toList, c ≠ ',' := by
    intro c hc
    rcases hchars c hc with hd | h | h
    · exact (isDigit_char_facts c hd).2.2.1
    · subst h; decide
    · subst h; decide
  have hnoSpaceChar : ∀ c ∈ (pyStr v).toList, c ≠ ' ' := by
    intro c hc
    rcases hchars c hc with hd | h | h
    · intro heq; subst heq; exact absurd hd (by decide)
    · subst h; decide
    · subst h; decide
  have htrim : trimChars (pyStr v).toList = (pyStr v).toList :=
    trimChars_id _ hnospace
  have hne : (pyStr v).toList ≠ [] := by
    rw [show (pyStr v).toList =
      (if v.num < 0 then ['-'] else []) ++ pyIp v ++ '.' :: pyFp v from rfl]
    simp
  have hstrip : stripKc (pyStr v).toList = (pyStr v).toList :=
    stripKc_id _ hnoK
  have hrc : removeChar ',' (pyStr v).toList = (pyStr v).toList := by
    rw [removeChar]
    apply List.filter_eq_self.mpr
    intro a ha
    simp only [decide_eq_true_eq]
    exact hnoComma a ha
  have hrs : removeChar ' ' (pyStr v).toList = (pyStr v).toList := by
    rw [removeChar]
    apply List.filter_eq_self.mpr
    intro a ha
    simp only [decide_eq_true_eq]
    exact hnoSpaceChar a ha
  rw [normalize_value_eval (pyStr v)]
  rw [htrim, if_neg hne, hstrip, hrc, hrs, parse_pyStr v hden]
  rfl
